import Mathlib

/-!
Shallow embedding of `jazzer_postprocessing.py`, the streaming fuzzing-telemetry
processor: line-level event extractors (run-start, coverage, crash, artifact,
exit), crash classification (`crash_2_sanitizer`), and the stream loop
(`parse_log_in_stream`) with its pending-crash triage and dump logic.

Strings are modelled as `List Char`; Python `Optional[int]` timestamps as
`Option Nat` / `Option Int`; Python exceptions as `Except PyErr`.
-/

/-- Python exceptions that the modelled code can raise. -/
inductive PyErr where
  | indexError : PyErr
  deriving DecidableEq, Repr

/-- Python whitespace characters recognised by `str.strip()` (ASCII range). -/
def isPySpace (c : Char) : Bool :=
  c == ' ' || c == '\t' || c == '\n' || c == '\r' || c == '\x0b' || c == '\x0c'

/-- `str.rstrip()`: drop trailing whitespace. -/
def pyRStrip (l : List Char) : List Char :=
  (l.reverse.dropWhile isPySpace).reverse

/-- `str.strip()`: drop leading and trailing whitespace. -/
def pyStrip (l : List Char) : List Char :=
  pyRStrip (l.dropWhile isPySpace)

/-- Python's substring test `needle in hay`. -/
def strContains (hay needle : List Char) : Bool :=
  hay.tails.any (fun t => needle.isPrefixOf t)

/-- Python's `s.split(sep)` for a one-character separator: the groups of
characters between occurrences of `sep` (never empty as a list of groups). -/
def pySplit (sep : Char) : List Char → List (List Char)
  | [] => [[]]
  | c :: rest =>
    if c == sep then [] :: pySplit sep rest
    else
      match pySplit sep rest with
      | [] => [[c]]
      | g :: gs => (c :: g) :: gs

/-- Numeric value of an ASCII digit character. -/
def digitVal (c : Char) : Nat := c.toNat - 48

/-- Value of a digit string, as computed by Python's `int()`. -/
def digitsVal (ds : List Char) : Nat :=
  ds.foldl (fun a c => a * 10 + digitVal c) 0

/-- Greedy scan of a maximal digit run (regex `\d+`), accumulating its value;
returns the value together with the unconsumed remainder. -/
def takeDigitsAux : Nat → List Char → Nat × List Char
  | acc, [] => (acc, [])
  | acc, c :: rest =>
    if c.isDigit then takeDigitsAux (acc * 10 + digitVal c) rest
    else (acc, c :: rest)

/-- Regex `\d+` at the current position: fails unless the first character is a
digit, otherwise consumes the maximal digit run and returns its value. -/
def takeDigits : List Char → Option (Nat × List Char)
  | [] => none
  | c :: rest =>
    if c.isDigit then some (takeDigitsAux (digitVal c) rest) else none

/-- Characters of the regex class `[a-z0-9]`. -/
def isLowerDigit (c : Char) : Bool :=
  ('a' ≤ c && c ≤ 'z') || c.isDigit

/-- Greedy maximal run of characters satisfying `p`. -/
def takeRun (p : Char → Bool) : List Char → List Char × List Char
  | [] => ([], [])
  | c :: rest =>
    if p c then
      let (r, s) := takeRun p rest
      (c :: r, s)
    else ([], c :: rest)

/-- Match a literal pattern at the current position, returning the remainder. -/
def dropLit : List Char → List Char → Option (List Char)
  | [], cs => some cs
  | _ :: _, [] => none
  | p :: ps, c :: cs => if p == c then dropLit ps cs else none

/-- Match a regex literal in which `.` is a wildcard (any character), at the
current position, returning the remainder. -/
def matchWild : List Char → List Char → Option (List Char)
  | [], cs => some cs
  | _ :: _, [] => none
  | p :: ps, c :: cs => if p == '.' || p == c then matchWild ps cs else none

/-- Backtracking search for greedy `.*P`: try the continuation `p` at every
position, preferring the latest (regex `.*` is greedy). -/
def findLastSuffix (p : List Char → Option α) : List Char → Option α
  | [] => p []
  | c :: rest =>
    match findLastSuffix p rest with
    | some r => some r
    | none => p (c :: rest)

/-- Fuel-driven decimal rendering (structural recursion so that it reduces in
the kernel). -/
def natToDigitsAux : Nat → Nat → List Char
  | 0, _ => []
  | fuel + 1, n =>
    if n < 10 then [Nat.digitChar n]
    else natToDigitsAux fuel (n / 10) ++ [Nat.digitChar (n % 10)]

/-- Decimal rendering of a natural number (digit characters, most significant
first), used to build concrete log lines. -/
def natToDigits (n : Nat) : List Char := natToDigitsAux (n + 1) n

/-- The head of the list, if any, is not a digit. -/
def headNotDigit : List Char → Prop
  | [] => True
  | c :: _ => c.isDigit = false

/-! ## Fixed catalog and pattern constants (from `jazzer_postprocessing.py`) -/

/-- The fixed catalog `SANITIZERS` of sanitizer-class labels, in priority order. -/
def SANITIZERS : List (List Char) :=
  [ "FuzzerSecurityIssueCritical: OS Command Injection".data,
    "FuzzerSecurityIssueCritical: Integer Overflow".data,
    "FuzzerSecurityIssueMedium: Server Side Request Forgery (SSRF)".data,
    "FuzzerSecurityIssueHigh: Remote Code Execution".data,
    "FuzzerSecurityIssueHigh: SQL Injection".data,
    "FuzzerSecurityIssueCritical: Remote JNDI Lookup".data,
    "FuzzerSecurityIssueCritical: LDAP Injection".data,
    "FuzzerSecurityIssueHigh: XPath Injection".data,
    "FuzzerSecurityIssueHigh: load arbitrary library".data,
    "FuzzerSecurityIssueLow: Regular Expression Injection".data,
    "FuzzerSecurityIssueCritical: Script Engine Injection".data,
    "FuzzerSecurityIssueCritical: File read/write hook path".data ]

/-- The SINKPOINT sanitizer class. -/
def SINKPOINT : List Char := "SINKPOINT".data

/-- The sentinel class returned when no catalog label matches. -/
def UNKNOWN_SANITIZER : List Char := "UNKNOWN SANITIZER".data

/-- `JAZZER_EXIT_LOG`: the process-exit marker substring. -/
def JAZZER_EXIT_LOG : List Char := "@@@@@ exit code of Jazzer".data

/-- Literal part of `FUZZ_START_LINE_PTRN` after `^(\d+)\s`; the two `.`
characters are regex wildcards (handled by `matchWild`). -/
def FUZZ_START_BANNER : List Char :=
  "OpenJDK 64-Bit Server VM warning: Option CriticalJNINatives was deprecated in version 16.0 and will likely be removed in a future release.".data

/-- Literal crash banner required by both crash-line patterns. -/
def CRASH_BANNER : List Char := "== Java Exception:".data

/-- The sink-hit marker recognised by `is_of_jazzer_sink`. -/
def SINK_MARKER : List Char := "BEEP BEEP, sink point".data

/-! ## Event extractors -/

/-- `FUZZ_START_LINE_PTRN.match(line)`: regex `^(\d+)\s` followed by the fixed
startup banner (with `.` wildcards); returns the captured timestamp. -/
def matchFuzzStart (line : List Char) : Option Nat := do
  let (ts, rest) ← takeDigits line
  match rest with
  | c :: rest2 =>
    if isPySpace c then do
      let _ ← matchWild FUZZ_START_BANNER rest2
      some ts
    else none
  | [] => none

/-- Elapsed time: `timestamp - initial_timestamp if initial_timestamp is not
None else None`. -/
def elapsedOf (ts : Nat) (t0 : Option Nat) : Option Int :=
  match t0 with
  | some t => some ((ts : Int) - (t : Int))
  | none => none

/-- Continuation for the regex tail `cov: (\d+) ft: (\d+)` (with trailing text
unconstrained), as reached through a greedy `.*`. -/
def covTail (cs : List Char) : Option (Nat × Nat) := do
  let cs ← dropLit "cov: ".data cs
  let (cov, cs) ← takeDigits cs
  let cs ← dropLit " ft: ".data cs
  let (ft, _) ← takeDigits cs
  some (cov, ft)

/-- `OLD_LIBFUZZER_COV_LINE_PTRN`: regex `^#(\d+).*cov: (\d+) ft: (\d+)`. -/
def matchOldCov (line : List Char) : Option (Nat × Nat × Nat) := do
  let cs ← dropLit "#".data line
  let (roundno, cs) ← takeDigits cs
  let (cov, ft) ← findLastSuffix covTail cs
  some (roundno, cov, ft)

/-- `LIBFUZZER_COV_LINE_PTRN`: regex `^(\d+)\s#(\d+).*cov: (\d+) ft: (\d+)`. -/
def matchNewCov (line : List Char) : Option (Nat × Nat × Nat × Nat) := do
  let (ts, rest) ← takeDigits line
  match rest with
  | c :: rest2 =>
    if isPySpace c then do
      let cs ← dropLit "#".data rest2
      let (roundno, cs) ← takeDigits cs
      let (cov, ft) ← findLastSuffix covTail cs
      some (ts, roundno, cov, ft)
    else none
  | [] => none

/-- `_parse_cov_line`: try the timestamped pattern, then the legacy one;
returns `(roundno, elapsed_time, cov, ft)`. -/
def _parse_cov_line (line : List Char) (t0 : Option Nat) :
    Option (Nat × Option Int × Nat × Nat) :=
  match matchNewCov line with
  | some (ts, roundno, cov, ft) => some (roundno, elapsedOf ts t0, cov, ft)
  | none =>
    match matchOldCov line with
    | some (roundno, cov, ft) => some (roundno, none, cov, ft)
    | none => none

/-- `_parse_crash_line`: regex `^(\d+)\s(== Java Exception:.*)` then legacy
`^(== Java Exception:.*)`; returns `(elapsed_time, crash)` where `crash` is the
captured banner group (the rest of the line from `==` on). -/
def _parse_crash_line (line : List Char) (t0 : Option Nat) :
    Option (Option Int × List Char) :=
  match takeDigits line with
  | some (ts, c :: rest2) =>
    if isPySpace c && CRASH_BANNER.isPrefixOf rest2 then
      some (elapsedOf ts t0, rest2)
    else if CRASH_BANNER.isPrefixOf line then some (none, line) else none
  | _ =>
    if CRASH_BANNER.isPrefixOf line then some (none, line) else none

/-- Regex tail `crash-[a-z0-9]+`, reached after `/artifacts/`; captures the
artifact id including the `crash-` prefix (greedy `[a-z0-9]+`, at least one). -/
def artifactId (cs : List Char) : Option (List Char) := do
  let cs ← dropLit "crash-".data cs
  match cs with
  | c :: _ =>
    if isLowerDigit c then
      some ("crash-".data ++ (takeRun isLowerDigit cs).1)
    else none
  | [] => none

/-- Continuation for `/artifacts/(crash-[a-z0-9]+)` as reached through the
second greedy `.*`. -/
def artifactSlash (cs : List Char) : Option (List Char) := do
  let cs ← dropLit "/artifacts/".data cs
  artifactId cs

/-- Continuation for `; Test unit written to .*/artifacts/(crash-[a-z0-9]+)`
as reached through the first greedy `.*`. -/
def artifactSemi (cs : List Char) : Option (List Char) := do
  let cs ← dropLit "; Test unit written to ".data cs
  findLastSuffix artifactSlash cs

/-- Body shared by both artifact patterns, after `artifact_prefix=`. -/
def artifactBody (cs : List Char) : Option (List Char) :=
  findLastSuffix artifactSemi cs

/-- `_parse_artifact_line`: regex
`^(\d+)\sartifact_prefix=.*; Test unit written to .*/artifacts/(crash-[a-z0-9]+)`
then the legacy variant without the leading timestamp; returns
`(elapsed_time, artifact)`. -/
def _parse_artifact_line (line : List Char) (t0 : Option Nat) :
    Option (Option Int × List Char) :=
  let newMatch : Option (Nat × List Char) := do
    let (ts, rest) ← takeDigits line
    match rest with
    | c :: rest2 =>
      if isPySpace c then do
        let cs ← dropLit "artifact_prefix=".data rest2
        let a ← artifactBody cs
        some (ts, a)
      else none
    | [] => none
  match newMatch with
  | some (ts, a) => some (elapsedOf ts t0, a)
  | none =>
    match dropLit "artifact_prefix=".data line with
    | some cs =>
      match artifactBody cs with
      | some a => some (none, a)
      | none => none
    | none => none

/-! ## Crash classification -/

/-- `is_of_jazzer_sink`: the environment flag `JAZZER_SINK_MODE` is modelled by
the boolean parameter `sinkMode`. -/
def is_of_jazzer_sink (sinkMode : Bool) (crash : List Char) : Bool :=
  sinkMode && strContains crash SINK_MARKER

/-- `is_known_sanitizer`. -/
def is_known_sanitizer (sanitizer : List Char) : Bool :=
  SANITIZERS.contains sanitizer

/-- `is_interesting_crash`: the first checker indexes `crash.split(":")[1]`,
which raises `IndexError` when the crash text has no colon. -/
def is_interesting_crash (crash : List Char) : Except PyErr Bool :=
  match (pySplit ':' crash)[1]? with
  | none => .error .indexError
  | some f =>
    if !(strContains f "code_intelligence".data) then .ok false
    else if strContains crash "Stack overflow (use ".data then .ok false
    else if strContains crash "Out of memory".data then .ok false
    else .ok true

/-- Python `sanitizer.replace(" ", "")`. -/
def stripSpaces (s : List Char) : List Char :=
  s.filter (fun c => !(c == ' '))

/-- The catalog scan loop of `crash_2_sanitizer`: for each label in order,
check the verbatim label, then its space-stripped form, against the raw crash
text. -/
def findSanitizer : List (List Char) → List Char → List Char
  | [], _ => UNKNOWN_SANITIZER
  | s :: rest, crash =>
    if strContains crash s then s
    else if strContains crash (stripSpaces s) then s
    else findSanitizer rest crash

/-- `crash_2_sanitizer`. -/
def crash_2_sanitizer (sinkMode : Bool) (crash : List Char) :
    Except PyErr (Option (List Char)) :=
  if is_of_jazzer_sink sinkMode crash then .ok (some SINKPOINT)
  else
    match is_interesting_crash crash with
    | .error e => .error e
    | .ok false => .ok none
    | .ok true => .ok (some (findSanitizer SANITIZERS crash))

/-! ## The stream loop `parse_log_in_stream` -/

/-- A pending crash `(elapsed_time, crash, sanitizer)` awaiting an artifact. -/
abbrev PendingCrash := Option Int × List Char × List Char

/-- A triaged crash `(crash_time, sanitizer, crash, artifact)`. -/
abbrev TriagedCrash := Option Int × List Char × List Char × List Char

/-- The local mutable state of `parse_log_in_stream` (the lists
`fuzz_statuses`/`all_fuzz_statuses`, kept by the source only for potential
future use and never output, are omitted). -/
structure FuzzState where
  cov_over_time : List (Option Int × Nat)
  ft_over_time : List (Option Int × Nat)
  log_crash_over_time : List (Option Int × List Char)
  artifact_over_time : List (Option Int × List Char)
  log_triage_crash_over_time : List TriagedCrash
  pending_crashes : List PendingCrash
  seen_sanitizers : List (List Char)
  ttl_round : Nat
  last_cov : Nat
  last_ft : Nat
  max_cov : Nat
  max_ft : Nat
  need_dump : Bool
  initial_timestamp : Option Nat
  ttl_roundno_base : Nat
  deriving DecidableEq, Repr

/-- The initial state at function entry. -/
def initState : FuzzState :=
  { cov_over_time := [], ft_over_time := [], log_crash_over_time := [],
    artifact_over_time := [], log_triage_crash_over_time := [],
    pending_crashes := [], seen_sanitizers := [], ttl_round := 0,
    last_cov := 0, last_ft := 0, max_cov := 0, max_ft := 0,
    need_dump := false, initial_timestamp := none, ttl_roundno_base := 0 }

/-- The fields copied into `fuzz_data` by `sync_result`. -/
structure SyncData where
  cov_over_time : List (Option Int × Nat)
  ft_over_time : List (Option Int × Nat)
  log_crash_over_time : List (Option Int × List Char)
  artifact_over_time : List (Option Int × List Char)
  log_triage_crash_over_time : List TriagedCrash
  ttl_round : Nat
  last_cov : Nat
  last_ft : Nat
  max_cov : Nat
  max_ft : Nat
  deriving DecidableEq, Repr

/-- `sync_result`: snapshot the aggregate fields into `fuzz_data`. -/
def toSync (st : FuzzState) : SyncData :=
  { cov_over_time := st.cov_over_time, ft_over_time := st.ft_over_time,
    log_crash_over_time := st.log_crash_over_time,
    artifact_over_time := st.artifact_over_time,
    log_triage_crash_over_time := st.log_triage_crash_over_time,
    ttl_round := st.ttl_round, last_cov := st.last_cov, last_ft := st.last_ft,
    max_cov := st.max_cov, max_ft := st.max_ft }

/-- The artifact-eligibility test of the triage loop:
`elapsed_time is None or crash_time is None or elapsed_time >= crash_time`. -/
def eligibleB (artTime crashTime : Option Int) : Bool :=
  match artTime, crashTime with
  | none, _ => true
  | _, none => true
  | some a, some c => a ≥ c

/-- `seen_sanitizers.add(x)` on the set modelled as a duplicate-free list. -/
def addSeen (x : List Char) (seen : List (List Char)) : List (List Char) :=
  if seen.contains x then seen else x :: seen

/-- The `while i < len(pending_crashes)` triage loop run for one artifact:
returns the remaining pending queue, the newly appended triaged crashes (in
order), the updated seen set, and whether a new triage fired (`need_dump`). -/
def triageScan (artTime : Option Int) (artifact : List Char) :
    List PendingCrash → List (List Char) →
    List PendingCrash × List TriagedCrash × List (List Char) × Bool
  | [], seen => ([], [], seen, false)
  | (crashTime, crash, san) :: rest, seen =>
    if eligibleB artTime crashTime then
      if !(seen.contains san) || san == SINKPOINT then
        let (p, t, s, _) := triageScan artTime artifact rest (addSeen san seen)
        (p, (crashTime, san, crash, artifact) :: t, s, true)
      else
        triageScan artTime artifact rest seen
    else
      let (p, t, s, d) := triageScan artTime artifact rest seen
      ((crashTime, crash, san) :: p, t, s, d)

/-- Section 1 of the loop body: the fuzzer start line, only examined while
`initial_timestamp is None`. -/
def step1 (st : FuzzState) (line : List Char) : FuzzState :=
  if st.initial_timestamp.isNone then
    match matchFuzzStart line with
    | some ts => { st with initial_timestamp := some ts, need_dump := true }
    | none => st
  else st

/-- Section 2 of the loop body: the cov line. -/
def step2 (st : FuzzState) (line : List Char) : FuzzState :=
  match _parse_cov_line line st.initial_timestamp with
  | some (roundno, e, cov, ft) =>
    { st with last_cov := cov, max_cov := max st.max_cov cov,
              last_ft := ft, max_ft := max st.max_ft ft,
              cov_over_time := st.cov_over_time ++ [(e, cov)],
              ft_over_time := st.ft_over_time ++ [(e, ft)],
              ttl_round := st.ttl_roundno_base + roundno }
  | none => st

/-- Section 3 of the loop body: the crash line and the queueing of the
classified crash (classification may raise). -/
def step3 (sinkMode : Bool) (st : FuzzState) (line : List Char) :
    Except PyErr FuzzState :=
  match _parse_crash_line line st.initial_timestamp with
  | some (e, crash) =>
    let st := { st with log_crash_over_time := st.log_crash_over_time ++ [(e, crash)] }
    match crash_2_sanitizer sinkMode crash with
    | .error err => .error err
    | .ok san? =>
      .ok (match san? with
        | some san =>
          if !(st.seen_sanitizers.contains san) || san == SINKPOINT then
            { st with pending_crashes := st.pending_crashes ++ [(e, crash, san)] }
          else st
        | none => st)
  | none => .ok st

/-- Section 4 of the loop body: the artifact line and the triage scan of the
pending queue. -/
def step4 (st : FuzzState) (line : List Char) : FuzzState :=
  match _parse_artifact_line line st.initial_timestamp with
  | some (e, artifact) =>
    let st := { st with artifact_over_time := st.artifact_over_time ++ [(e, artifact)] }
    let (pend, tri, seen, dumped) :=
      triageScan e artifact st.pending_crashes st.seen_sanitizers
    { st with pending_crashes := pend,
              log_triage_crash_over_time := st.log_triage_crash_over_time ++ tri,
              seen_sanitizers := seen,
              need_dump := st.need_dump || dumped }
  | none => st

/-- Section 5 of the loop body: the exit line. -/
def step5 (st : FuzzState) (line : List Char) : FuzzState :=
  if strContains line JAZZER_EXIT_LOG then { st with ttl_roundno_base := st.ttl_round }
  else st

/-- One iteration of the `for line in file_obj` body on an already decoded and
stripped line, up to but not including the dump attempt: sections 1-5 of the
source (start line, cov line, crash line, artifact line, exit line), in source
order, each seeing the state left by the previous one. Raises whatever the
extraction/triage code raises. -/
def processLine (sinkMode : Bool) (st : FuzzState) (line : List Char) :
    Except PyErr FuzzState :=
  match step3 sinkMode (step2 (step1 st line) line) line with
  | .error err => .error err
  | .ok st3 => .ok (step5 (step4 st3 line) line)

/-- The `for line in file_obj` loop inside the outer `try`. The external dump
callback `dump_fuzz_data` (file I/O defined outside this function) is modelled
by the oracle `dumpFails`: whether the k-th attempted dump raises. Returns the
per-line `sync_result` snapshots in order, the state at loop end (or at the
uncaught exception), and the number of completed dumps. An exception raised
mid-line (by extraction/triage or by a dump) escapes the loop and is caught by
the outer `try`, which only logs it, so processing of the remaining lines
stops while `fuzz_data` keeps the last synced snapshot. -/
def runLoop (sinkMode : Bool) (dumpFails : Nat → Bool) :
    FuzzState → Nat → List (List Char) → List SyncData × FuzzState × Nat
  | st, d, [] => ([], st, d)
  | st, d, l :: rest =>
    match processLine sinkMode st (pyStrip l) with
    | .error _ => ([], st, d)
    | .ok st' =>
      if st'.need_dump then
        if dumpFails d then ([toSync st'], st', d)
        else
          let (tr, fin, dn) :=
            runLoop sinkMode dumpFails { st' with need_dump := false } (d + 1) rest
          (toSync st' :: tr, fin, dn)
      else
        let (tr, fin, dn) := runLoop sinkMode dumpFails st' d rest
        (toSync st' :: tr, fin, dn)

/-- `parse_log_in_stream`: the contents of `fuzz_data` when the call returns
(the last synced snapshot; the outer `except` only logs). -/
def parse_log_in_stream (sinkMode : Bool) (dumpFails : Nat → Bool)
    (lines : List (List Char)) : SyncData :=
  toSync (runLoop sinkMode dumpFails initState 0 lines).2.1

/-- The per-line history of `fuzz_data`'s `ttl_round` field. -/
def ttlRoundTrace (sinkMode : Bool) (dumpFails : Nat → Bool)
    (lines : List (List Char)) : List Nat :=
  (runLoop sinkMode dumpFails initState 0 lines).1.map SyncData.ttl_round

/-- A dump oracle under which no dump attempt ever fails. -/
def noDumpFail : Nat → Bool := fun _ => false

/-! ## Concrete log lines and stream constructors used by the claims -/

/-- The run-start banner text as it appears in real logs (the two regex `.`
wildcards of `FUZZ_START_LINE_PTRN` correspond to literal dots here). -/
def START_TEXT : List Char :=
  "OpenJDK 64-Bit Server VM warning: Option CriticalJNINatives was deprecated in version 16.0 and will likely be removed in a future release.".data

/-- A timestamped run-start line. -/
def mkStartLine (ts : Nat) : List Char := natToDigits ts ++ ' ' :: START_TEXT

/-- A legacy (timestamp-less) coverage line for round `r` with `cov: 1 ft: 1`. -/
def mkCovLine (r : Nat) : List Char :=
  '#' :: natToDigits r ++ " cov: 1 ft: 1".data

/-- A process-exit marker line. -/
def exitLine : List Char := "@@@@@ exit code of Jazzer: 0".data

/-- The stream of claim C6: one run with local rounds `1..N1`, an exit marker,
then a second run with local rounds `1..N2`. -/
def c6Stream (N1 N2 : Nat) : List (List Char) :=
  (List.range' 1 N1).map mkCovLine ++ exitLine :: (List.range' 1 N2).map mkCovLine

/-- A legacy crash line whose text classifies to the SQL Injection label. -/
def crashSQLiLine : List Char :=
  "== Java Exception: com.code_intelligence.jazzer.api.FuzzerSecurityIssueHigh: SQL Injection".data

/-- A legacy artifact line with artifact id `crash-abc123`. -/
def artifactLine : List Char :=
  "artifact_prefix=./; Test unit written to ./artifacts/crash-abc123".data

/-- A legacy crash line carrying the sink-hit marker. -/
def sinkCrashLine : List Char :=
  "== Java Exception: BEEP BEEP, sink point hit".data

/-- A legacy artifact line with artifact id `crash-<i>`. -/
def mkArtifactLine (i : Nat) : List Char :=
  "artifact_prefix=./; Test unit written to ./artifacts/crash-".data ++ natToDigits i

/-- The stream of claim C7: `n` successive sink-hit crash/artifact pairs with
pairwise distinct artifact ids. -/
def c7Stream (n : Nat) : List (List Char) :=
  (List.range' 1 n).flatMap (fun i => [sinkCrashLine, mkArtifactLine i])

/-- The crash text of the C4 counterexample: interesting, not a sink hit; the
space-stripped form of the first catalog label occurs in it, and the second
catalog label occurs verbatim. -/
def c4cex : List Char :=
  "== Java Exception: code_intelligence FuzzerSecurityIssueCritical:OSCommandInjection FuzzerSecurityIssueCritical: Integer Overflow".data

/-- First catalog label (OS Command Injection). -/
def sanOSCI : List Char := "FuzzerSecurityIssueCritical: OS Command Injection".data

/-- Second catalog label (Integer Overflow). -/
def sanIntOvf : List Char := "FuzzerSecurityIssueCritical: Integer Overflow".data

/-- The SQL Injection catalog label. -/
def sanSQLi : List Char := "FuzzerSecurityIssueHigh: SQL Injection".data

/-- Number of triage entries carrying sanitizer class `c`. -/
def countClass (c : List Char) (l : List TriagedCrash) : Nat :=
  (l.filter (fun t => t.2.1 == c)).length

/-! ## Abstract events for the legacy/timestamped correspondence (claim C8) -/

/-- One logical log event; claim C8 compares the same event stream rendered in
the legacy wire format (no timestamp) and in the current wire format. -/
inductive LogEv where
  | start : LogEv
  | cov (r c f : Nat) : LogEv
  | crash (s : List Char) : LogEv
  | artifact (b : List Char) : LogEv
  | exitMark : LogEv

/-- Legacy (timestamp-less) rendering of an event. A start event renders as
the bare banner text: the legacy format has no run-start line, and the bare
banner matches no extractor. -/
def renderLegacy : LogEv → List Char
  | .start => START_TEXT
  | .cov r c f =>
    '#' :: (natToDigits r ++ (" cov: ".data ++ (natToDigits c
      ++ (" ft: ".data ++ natToDigits f))))
  | .crash s => CRASH_BANNER ++ s
  | .artifact b =>
    "artifact_prefix=./; Test unit written to ./artifacts/crash-".data ++ b
  | .exitMark => exitLine

/-- Current-format rendering: the same event line with a `TS ` prefix. -/
def renderCur (ts : Nat) (ev : LogEv) : List Char :=
  natToDigits ts ++ ' ' :: renderLegacy ev

/-- Payload well-formedness for C8: crash texts carry no trailing whitespace
(it would be stripped identically on both sides anyway) and artifact id bodies
are nonempty digit strings (a subset of the `[a-z0-9]+` the pattern accepts). -/
def wfEv : LogEv → Prop
  | .crash s => pyRStrip s = s
  | .artifact b => b ≠ [] ∧ ∀ c ∈ b, c.isDigit = true
  | _ => True

/-- The C8 coupling: the legacy-run state carries exactly the current-run
state's data with every elapsed time erased to `none`, and the legacy run
never acquires a baseline timestamp. -/
def coupled (stL stC : FuzzState) : Prop :=
  stL.cov_over_time = stC.cov_over_time.map (fun p => ((none : Option Int), p.2)) ∧
  stL.ft_over_time = stC.ft_over_time.map (fun p => ((none : Option Int), p.2)) ∧
  stL.log_crash_over_time
    = stC.log_crash_over_time.map (fun p => ((none : Option Int), p.2)) ∧
  stL.artifact_over_time
    = stC.artifact_over_time.map (fun p => ((none : Option Int), p.2)) ∧
  stL.log_triage_crash_over_time
    = stC.log_triage_crash_over_time.map (fun p => ((none : Option Int), p.2)) ∧
  stL.pending_crashes = stC.pending_crashes.map (fun p => ((none : Option Int), p.2)) ∧
  stL.seen_sanitizers = stC.seen_sanitizers ∧
  stL.ttl_round = stC.ttl_round ∧
  stL.last_cov = stC.last_cov ∧
  stL.last_ft = stC.last_ft ∧
  stL.max_cov = stC.max_cov ∧
  stL.max_ft = stC.max_ft ∧
  stL.ttl_roundno_base = stC.ttl_roundno_base ∧
  stL.initial_timestamp = none

/-- Every timestamped pending crash in the current-run state was queued at or
before the lower bound `lb` of all future timestamps, relative to the
baseline. -/
def pendingBounded (stC : FuzzState) (lb : Nat) : Prop :=
  ∀ pc ∈ stC.pending_crashes, ∀ v : Int, pc.1 = some v →
    ∃ t0v : Nat, stC.initial_timestamp = some t0v ∧ v ≤ (lb : Int) - (t0v : Int)

/-- The crash-section update of the state for an extracted crash `crash` with
elapsed time `e` whose classification returned `san?`: the crash is logged,
then queued if its class is new or SINKPOINT. -/
def crashQueued (st : FuzzState) (e : Option Int) (crash : List Char)
    (san? : Option (List Char)) : FuzzState :=
  match san? with
  | some san =>
    if !(st.seen_sanitizers.contains san) || san == SINKPOINT then
      { st with log_crash_over_time := st.log_crash_over_time ++ [(e, crash)],
                pending_crashes := st.pending_crashes ++ [(e, crash, san)] }
    else { st with log_crash_over_time := st.log_crash_over_time ++ [(e, crash)] }
  | none => { st with log_crash_over_time := st.log_crash_over_time ++ [(e, crash)] }

/-- The C8 comparison: fed the legacy rendering of an event stream, the loop
completes a sync for every line (no crash aborts it), and the resulting
`fuzz_data` agrees with the one produced by the timestamped rendering on every
non-time field, every legacy elapsed time being `None`. -/
def c8Concl (sm : Bool) (evs : List (Nat × LogEv)) : Prop :=
  (runLoop sm noDumpFail initState 0
      (evs.map (fun p => renderLegacy p.2))).1.length = evs.length ∧
  (parse_log_in_stream sm noDumpFail
      (evs.map (fun p => renderLegacy p.2))).cov_over_time
    = (parse_log_in_stream sm noDumpFail
        (evs.map (fun p => renderCur p.1 p.2))).cov_over_time.map
      (fun p => ((none : Option Int), p.2)) ∧
  (parse_log_in_stream sm noDumpFail
      (evs.map (fun p => renderLegacy p.2))).ft_over_time
    = (parse_log_in_stream sm noDumpFail
        (evs.map (fun p => renderCur p.1 p.2))).ft_over_time.map
      (fun p => ((none : Option Int), p.2)) ∧
  (parse_log_in_stream sm noDumpFail
      (evs.map (fun p => renderLegacy p.2))).log_crash_over_time
    = (parse_log_in_stream sm noDumpFail
        (evs.map (fun p => renderCur p.1 p.2))).log_crash_over_time.map
      (fun p => ((none : Option Int), p.2)) ∧
  (parse_log_in_stream sm noDumpFail
      (evs.map (fun p => renderLegacy p.2))).artifact_over_time
    = (parse_log_in_stream sm noDumpFail
        (evs.map (fun p => renderCur p.1 p.2))).artifact_over_time.map
      (fun p => ((none : Option Int), p.2)) ∧
  (parse_log_in_stream sm noDumpFail
      (evs.map (fun p => renderLegacy p.2))).log_triage_crash_over_time
    = (parse_log_in_stream sm noDumpFail
        (evs.map (fun p => renderCur p.1 p.2))).log_triage_crash_over_time.map
      (fun p => ((none : Option Int), p.2)) ∧
  (parse_log_in_stream sm noDumpFail
      (evs.map (fun p => renderLegacy p.2))).ttl_round
    = (parse_log_in_stream sm noDumpFail
        (evs.map (fun p => renderCur p.1 p.2))).ttl_round ∧
  (parse_log_in_stream sm noDumpFail
      (evs.map (fun p => renderLegacy p.2))).last_cov
    = (parse_log_in_stream sm noDumpFail
        (evs.map (fun p => renderCur p.1 p.2))).last_cov ∧
  (parse_log_in_stream sm noDumpFail
      (evs.map (fun p => renderLegacy p.2))).last_ft
    = (parse_log_in_stream sm noDumpFail
        (evs.map (fun p => renderCur p.1 p.2))).last_ft ∧
  (parse_log_in_stream sm noDumpFail
      (evs.map (fun p => renderLegacy p.2))).max_cov
    = (parse_log_in_stream sm noDumpFail
        (evs.map (fun p => renderCur p.1 p.2))).max_cov ∧
  (parse_log_in_stream sm noDumpFail
      (evs.map (fun p => renderLegacy p.2))).max_ft
    = (parse_log_in_stream sm noDumpFail
        (evs.map (fun p => renderCur p.1 p.2))).max_ft ∧
  (∀ p ∈ (parse_log_in_stream sm noDumpFail
      (evs.map (fun p => renderLegacy p.2))).cov_over_time, p.1 = none) ∧
  (∀ p ∈ (parse_log_in_stream sm noDumpFail
      (evs.map (fun p => renderLegacy p.2))).ft_over_time, p.1 = none) ∧
  (∀ p ∈ (parse_log_in_stream sm noDumpFail
      (evs.map (fun p => renderLegacy p.2))).log_crash_over_time, p.1 = none) ∧
  (∀ p ∈ (parse_log_in_stream sm noDumpFail
      (evs.map (fun p => renderLegacy p.2))).artifact_over_time, p.1 = none) ∧
  (∀ p ∈ (parse_log_in_stream sm noDumpFail
      (evs.map (fun p => renderLegacy p.2))).log_triage_crash_over_time, p.1 = none)

/-- A concrete event stream exercising every event kind: run start, coverage,
an interesting classified crash, the matching artifact, and the exit marker. -/
def c8evs : List (Nat × LogEv) :=
  [ (1000, LogEv.start),
    (1010, LogEv.cov 5 100 50),
    (1015, LogEv.crash (" com.code_intelligence.jazzer.api.FuzzerSecurityIssueCritical: OS Command Injection".data)),
    (1020, LogEv.artifact "123".data),
    (1030, LogEv.exitMark) ]

/-! ## Basic parsing lemmas -/

theorem digitsVal_foldl (ds : List Char) (a : Nat) :
    ds.foldl (fun a c => a * 10 + digitVal c) a = a * 10 ^ ds.length + digitsVal ds := by
  induction ds generalizing a with
  | nil => simp [digitsVal]
  | cons c t ih =>
    have hd : digitsVal (c :: t) = digitVal c * 10 ^ t.length + digitsVal t := by
      rw [digitsVal, List.foldl_cons, show (0 * 10 + digitVal c) = digitVal c by omega]
      exact ih (digitVal c)
    simp only [List.foldl_cons, List.length_cons]
    rw [ih (a * 10 + digitVal c), hd, pow_succ]
    ring

theorem digitsVal_cons (c : Char) (t : List Char) :
    digitsVal (c :: t) = digitVal c * 10 ^ t.length + digitsVal t := by
  rw [digitsVal, List.foldl_cons, show (0 * 10 + digitVal c) = digitVal c by omega]
  exact digitsVal_foldl t (digitVal c)

theorem digitsVal_append_singleton (xs : List Char) (c : Char) :
    digitsVal (xs ++ [c]) = digitsVal xs * 10 + digitVal c := by
  unfold digitsVal
  rw [List.foldl_append]
  simp

theorem digitVal_digitChar {d : Nat} (h : d < 10) :
    digitVal (Nat.digitChar d) = d := by
  interval_cases d <;> decide

theorem isDigit_digitChar {d : Nat} (h : d < 10) :
    (Nat.digitChar d).isDigit = true := by
  interval_cases d <;> decide

theorem natToDigitsAux_spec (n : Nat) :
    ∀ fuel, n < fuel →
      digitsVal (natToDigitsAux fuel n) = n ∧ natToDigitsAux fuel n ≠ [] ∧
        ∀ c ∈ natToDigitsAux fuel n, c.isDigit = true := by
  induction n using Nat.strong_induction_on with
  | _ n ih =>
    intro fuel hf
    cases fuel with
    | zero => omega
    | succ f =>
      rw [natToDigitsAux]
      split
      · rename_i h
        refine ⟨?_, by simp, ?_⟩
        · simp [digitsVal, digitVal_digitChar h]
        · intro c hc
          simp only [List.mem_singleton] at hc
          subst hc
          exact isDigit_digitChar h
      · rename_i h
        have hd : n / 10 < n := Nat.div_lt_self (by omega) (by omega)
        have hf2 : n / 10 < f := by omega
        obtain ⟨hv, _, hall⟩ := ih (n / 10) hd f hf2
        refine ⟨?_, by simp, ?_⟩
        · rw [digitsVal_append_singleton, hv, digitVal_digitChar (Nat.mod_lt _ (by omega))]
          omega
        · intro c hc
          rw [List.mem_append] at hc
          rcases hc with hc | hc
          · exact hall c hc
          · simp only [List.mem_singleton] at hc
            subst hc
            exact isDigit_digitChar (Nat.mod_lt _ (by omega))

theorem natToDigits_spec (n : Nat) :
    digitsVal (natToDigits n) = n ∧ natToDigits n ≠ [] ∧
      ∀ c ∈ natToDigits n, c.isDigit = true :=
  natToDigitsAux_spec n (n + 1) (by omega)

theorem takeDigitsAux_append (ds : List Char) (hds : ∀ c ∈ ds, c.isDigit = true)
    (rest : List Char) (hrest : headNotDigit rest) (acc : Nat) :
    takeDigitsAux acc (ds ++ rest) = (acc * 10 ^ ds.length + digitsVal ds, rest) := by
  induction ds generalizing acc with
  | nil =>
    simp only [List.nil_append, digitsVal, List.foldl_nil, List.length_nil, pow_zero,
      Nat.mul_one, Nat.add_zero]
    cases rest with
    | nil => rfl
    | cons c t =>
      simp only [takeDigitsAux]
      rw [show c.isDigit = false from hrest]
      simp
  | cons c t ih =>
    have hc : c.isDigit = true := hds c (by simp)
    have hstep : takeDigitsAux acc ((c :: t) ++ rest)
        = takeDigitsAux (acc * 10 + digitVal c) (t ++ rest) := by
      show takeDigitsAux acc (c :: (t ++ rest)) = _
      simp only [takeDigitsAux]
      rw [if_pos hc]
    rw [hstep, ih (fun x hx => hds x (by simp [hx])) (acc * 10 + digitVal c),
      digitsVal_cons]
    simp only [List.length_cons, pow_succ]
    congr 1
    ring

theorem takeDigits_append (ds : List Char) (hne : ds ≠ [])
    (hds : ∀ c ∈ ds, c.isDigit = true)
    (rest : List Char) (hrest : headNotDigit rest) :
    takeDigits (ds ++ rest) = some (digitsVal ds, rest) := by
  cases ds with
  | nil => exact absurd rfl hne
  | cons c t =>
    have hc : c.isDigit = true := hds c (by simp)
    show takeDigits (c :: (t ++ rest)) = _
    simp only [takeDigits]
    rw [if_pos hc, takeDigitsAux_append t (fun x hx => hds x (by simp [hx])) rest hrest,
      digitsVal_cons]

theorem takeDigits_natToDigits (n : Nat) (rest : List Char) (hrest : headNotDigit rest) :
    takeDigits (natToDigits n ++ rest) = some (n, rest) := by
  obtain ⟨hv, hne, hall⟩ := natToDigits_spec n
  rw [takeDigits_append _ hne hall rest hrest, hv]


theorem isPrefixOf_mem {p l : List Char} (h : p.isPrefixOf l = true) {c : Char}
    (hc : c ∈ p) : c ∈ l := by
  induction p generalizing l with
  | nil => cases hc
  | cons x t ih =>
    cases l with
    | nil => simp [List.isPrefixOf] at h
    | cons y m =>
      simp only [List.isPrefixOf, Bool.and_eq_true, beq_iff_eq] at h
      obtain ⟨rfl, h2⟩ := h
      rcases List.mem_cons.mp hc with rfl | hc
      · exact List.mem_cons_self _ _
      · exact List.mem_cons_of_mem _ (ih h2 hc)

theorem isPrefixOf_append {p l : List Char} (h : p.isPrefixOf l = true) :
    ∃ t, l = p ++ t := by
  induction p generalizing l with
  | nil => exact ⟨l, rfl⟩
  | cons x t ih =>
    cases l with
    | nil => simp [List.isPrefixOf] at h
    | cons y m =>
      simp only [List.isPrefixOf, Bool.and_eq_true, beq_iff_eq] at h
      obtain ⟨rfl, h2⟩ := h
      obtain ⟨u, hu⟩ := ih h2
      exact ⟨u, by rw [List.cons_append, hu]⟩

theorem pySplit_ne_nil (sep : Char) (l : List Char) : pySplit sep l ≠ [] := by
  induction l with
  | nil => simp [pySplit]
  | cons c rest ih =>
    rw [pySplit]
    by_cases h : (c == sep) = true
    · simp [h]
    · simp only [h]
      cases hps : pySplit sep rest with
      | nil => simp
      | cons g gs => simp

theorem pySplit_length_ge_two {sep : Char} {l : List Char} (h : sep ∈ l) :
    2 ≤ (pySplit sep l).length := by
  induction l with
  | nil => cases h
  | cons c rest ih =>
    by_cases hc : (c == sep) = true
    · have hpos := List.length_pos.mpr (pySplit_ne_nil sep rest)
      rw [pySplit, if_pos hc]
      simp only [List.length_cons]
      omega
    · have hcf : (c == sep) = false := by simpa using hc
      have hm : sep ∈ rest := by
        rcases List.mem_cons.mp h with rfl | hr
        · simp at hcf
        · exact hr
      have h2 := ih hm
      cases hps : pySplit sep rest with
      | nil => exact absurd hps (pySplit_ne_nil sep rest)
      | cons g gs =>
        have heq : pySplit sep (c :: rest) = (c :: g) :: gs := by
          rw [pySplit, hcf, hps]
          simp
        rw [heq]
        rw [hps] at h2
        simp only [List.length_cons] at h2 ⊢
        omega

theorem is_interesting_ok_of_colon {crash : List Char} (h : ':' ∈ crash) :
    ∃ b, is_interesting_crash crash = .ok b := by
  have hlen := pySplit_length_ge_two h
  rw [is_interesting_crash, List.getElem?_eq_getElem (by omega)]
  dsimp only
  split_ifs <;> exact ⟨_, rfl⟩

theorem _parse_crash_line_shape {line : List Char} {t0 : Option Nat}
    {e : Option Int} {crash : List Char}
    (h : _parse_crash_line line t0 = some (e, crash)) :
    CRASH_BANNER.isPrefixOf crash = true := by
  unfold _parse_crash_line at h
  cases htd : takeDigits line with
  | none =>
    rw [htd] at h
    dsimp only at h
    split_ifs at h with hp
    · simp only [Option.some.injEq, Prod.mk.injEq] at h
      obtain ⟨rfl, rfl⟩ := h
      exact hp
  | some p =>
    obtain ⟨ts, rest⟩ := p
    cases rest with
    | nil =>
      rw [htd] at h
      dsimp only at h
      split_ifs at h with hp
      · simp only [Option.some.injEq, Prod.mk.injEq] at h
        obtain ⟨rfl, rfl⟩ := h
        exact hp
    | cons c rest2 =>
      rw [htd] at h
      dsimp only at h
      split_ifs at h with hp hq
      · simp only [Option.some.injEq, Prod.mk.injEq] at h
        obtain ⟨rfl, rfl⟩ := h
        simp only [Bool.and_eq_true] at hp
        exact hp.2
      · simp only [Option.some.injEq, Prod.mk.injEq] at h
        obtain ⟨rfl, rfl⟩ := h
        exact hq

/-- C3: when an artifact event arrives, the pending queue that remains after
the triage scan consists exactly of the pending crashes that fail the
eligibility test `artifact_time is None or crash_time is None or
artifact_time >= crash_time`, kept in arrival order: an eligible pending crash
is always removed, an ineligible one is always left to be retried against a
later artifact. -/
theorem C3_pending_removed_iff_eligible (artTime : Option Int) (artifact : List Char)
    (pending : List PendingCrash) (seen : List (List Char)) :
    (triageScan artTime artifact pending seen).1
      = pending.filter (fun pc => !(eligibleB artTime pc.1)) := by
  induction pending generalizing seen with
  | nil => rfl
  | cons pc rest ih =>
    obtain ⟨ct, crash, san⟩ := pc
    cases he : eligibleB artTime ct with
    | false => simp [triageScan, he, ih, List.filter_cons]
    | true =>
      cases hs : (!(seen.contains san) || san == SINKPOINT) with
      | false =>
        simp only [Bool.or_eq_false_iff, Bool.not_eq_false, beq_eq_false_iff_ne] at hs
        have hmem : san ∈ seen := by simpa using hs.1
        simp [triageScan, he, ih, List.filter_cons, hmem, hs.2]
      | true =>
        have hs2 : san ∉ seen ∨ san = SINKPOINT := by simpa using hs
        simp [triageScan, he, ih, List.filter_cons, hs2]

theorem findSanitizer_eq_find (cat : List (List Char)) (crash : List Char) :
    findSanitizer cat crash
      = (cat.find? (fun s =>
          strContains crash s || strContains crash (stripSpaces s))).getD
            UNKNOWN_SANITIZER := by
  induction cat with
  | nil => rfl
  | cons s rest ih =>
    by_cases h1 : strContains crash s = true
    · simp [findSanitizer, List.find?, h1]
    · by_cases h2 : strContains crash (stripSpaces s) = true
      · simp [findSanitizer, List.find?, h1, h2]
      · simp [findSanitizer, List.find?, h1, h2, ih]

/-- C4 as stated is false: `c4cex` is an interesting, non-sink crash text; the
first (and only) catalog label appearing verbatim in it is the Integer
Overflow label, yet classification returns the OS Command Injection label
(whose space-stripped form occurs in the raw text), because the code runs a
single interleaved pass over the catalog rather than a verbatim pass followed
by a space-stripped pass. -/
theorem C4_counterexample :
    is_of_jazzer_sink false c4cex = false ∧
    is_interesting_crash c4cex = .ok true ∧
    SANITIZERS.find? (fun s => strContains c4cex s) = some sanIntOvf ∧
    crash_2_sanitizer false c4cex = .ok (some sanOSCI) ∧
    sanOSCI ≠ sanIntOvf := by
  refine ⟨rfl, rfl, ?_, rfl, by decide⟩
  rfl

/-- C4 amended: for an interesting, non-sink crash text, classification
returns the first catalog label (in priority order) that either appears
verbatim in the crash text or whose space-stripped form appears in the raw
(unstripped) crash text — the two checks are interleaved per label, with the
verbatim check first — and the sentinel label if no catalog label matches
either way. -/
theorem C4_first_label_single_pass (sinkMode : Bool) (crash : List Char)
    (hsink : is_of_jazzer_sink sinkMode crash = false)
    (hint : is_interesting_crash crash = .ok true) :
    crash_2_sanitizer sinkMode crash
      = .ok (some ((SANITIZERS.find? (fun s =>
          strContains crash s || strContains crash (stripSpaces s))).getD
            UNKNOWN_SANITIZER)) := by
  rw [crash_2_sanitizer, if_neg (by simp [hsink]), hint, findSanitizer_eq_find]

/-- Witness for the C4 amended theorem at a concrete SQL-Injection crash. -/
theorem C4_first_label_single_pass_witness :
    crash_2_sanitizer false crashSQLiLine
      = .ok (some ((SANITIZERS.find? (fun s =>
          strContains crashSQLiLine s || strContains crashSQLiLine (stripSpaces s))).getD
            UNKNOWN_SANITIZER)) :=
  C4_first_label_single_pass false crashSQLiLine (by rfl) (by rfl)

/-- C10: every crash text produced by the crash extractor (either wire format)
begins with the banner `== Java Exception:`, hence contains a colon, so the
interestingness check's indexing of the second colon-delimited field cannot
raise and classification by `crash_2_sanitizer` never raises on it. -/
theorem C10_classification_total (line : List Char) (t0 : Option Nat)
    (e : Option Int) (crash : List Char)
    (h : _parse_crash_line line t0 = some (e, crash)) :
    CRASH_BANNER.isPrefixOf crash = true ∧
      ∀ sinkMode, ∃ r, crash_2_sanitizer sinkMode crash = .ok r := by
  have hpre := _parse_crash_line_shape h
  refine ⟨hpre, fun sinkMode => ?_⟩
  have hcolon : ':' ∈ crash := isPrefixOf_mem hpre (by decide)
  rw [crash_2_sanitizer]
  by_cases hs : is_of_jazzer_sink sinkMode crash = true
  · simp [hs]
  · obtain ⟨b, hb⟩ := is_interesting_ok_of_colon hcolon
    rw [if_neg (by simp [hs]), hb]
    cases b <;> exact ⟨_, rfl⟩

/-- Witness for C10 at a concrete legacy crash line. -/
theorem C10_classification_total_witness :
    CRASH_BANNER.isPrefixOf crashSQLiLine = true ∧
      ∀ sinkMode, ∃ r, crash_2_sanitizer sinkMode crashSQLiLine = .ok r :=
  C10_classification_total crashSQLiLine none none crashSQLiLine (by rfl)

theorem takeDigits_some_head {l : List Char} {p : Nat × List Char}
    (h : takeDigits l = some p) : ∃ c rest, l = c :: rest ∧ c.isDigit = true := by
  cases l with
  | nil => simp [takeDigits] at h
  | cons c rest =>
    refine ⟨c, rest, rfl, ?_⟩
    by_contra hc
    simp [takeDigits, Bool.not_eq_true] at h hc
    rw [hc] at h
    simp at h

theorem crash_not_start {line : List Char} {t0 : Option Nat} {e : Option Int}
    {crash : List Char} (h : _parse_crash_line line t0 = some (e, crash)) :
    matchFuzzStart line = none := by
  unfold _parse_crash_line at h
  cases htd : takeDigits line with
  | none => simp [matchFuzzStart, htd, Option.bind]
  | some p =>
    obtain ⟨ts, rest⟩ := p
    rw [htd] at h
    obtain ⟨d, ltail, hline, hd⟩ := takeDigits_some_head htd
    cases rest with
    | nil => simp [matchFuzzStart, htd, Option.bind]
    | cons c rest2 =>
      dsimp only at h
      split_ifs at h with hp hq
      · simp only [Bool.and_eq_true] at hp
        obtain ⟨t, ht⟩ := isPrefixOf_append hp.2
        rw [matchFuzzStart, htd]
        simp only [Option.bind_eq_bind, Option.some_bind]
        rw [ht]
        have hmw : matchWild FUZZ_START_BANNER (CRASH_BANNER ++ t) = none := rfl
        simp [hmw]
      · obtain ⟨t, ht⟩ := isPrefixOf_append hq
        rw [hline] at ht
        have hde : d = '=' := by
          have := congrArg (fun l => l.head?) ht
          simpa [CRASH_BANNER] using this
        rw [hde] at hd
        simp at hd

theorem crash_not_artifact {line : List Char} {t0 : Option Nat} (t1 : Option Nat) {e : Option Int}
    {crash : List Char} (h : _parse_crash_line line t0 = some (e, crash)) :
    _parse_artifact_line line t1 = none := by
  unfold _parse_crash_line at h
  cases htd : takeDigits line with
  | none =>
    rw [htd] at h
    dsimp only at h
    split_ifs at h with hp
    obtain ⟨t, ht⟩ := isPrefixOf_append hp
    rw [ht]
    rfl
  | some p =>
    obtain ⟨ts, rest⟩ := p
    rw [htd] at h
    obtain ⟨d, ltail, hline, hd⟩ := takeDigits_some_head htd
    cases rest with
    | nil =>
      dsimp only at h
      split_ifs at h with hp
      obtain ⟨t, ht⟩ := isPrefixOf_append hp
      rw [hline] at ht
      have hde : d = '=' := by
        have := congrArg (fun l => l.head?) ht
        simpa [CRASH_BANNER] using this
      rw [hde] at hd
      simp at hd
    | cons c rest2 =>
      dsimp only at h
      split_ifs at h with hp hq
      · simp only [Bool.and_eq_true] at hp
        obtain ⟨t, ht⟩ := isPrefixOf_append hp.2
        have hda : ('a' == d) = false := by
          simp only [beq_eq_false_iff_ne]
          intro heq
          rw [← heq] at hd
          simp at hd
        rw [_parse_artifact_line, htd]
        simp only [Option.bind_eq_bind, Option.some_bind]
        rw [if_pos hp.1, ht]
        have hdrop : dropLit "artifact_prefix=".data (CRASH_BANNER ++ t) = none := rfl
        rw [hdrop]
        simp only [Option.none_bind]
        rw [hline]
        simp [dropLit, hda]
      · obtain ⟨t, ht⟩ := isPrefixOf_append hq
        rw [hline] at ht
        have hde : d = '=' := by
          have := congrArg (fun l => l.head?) ht
          simpa [CRASH_BANNER] using this
        rw [hde] at hd
        simp at hd

theorem step1_of_none {st : FuzzState} {line : List Char}
    (h : matchFuzzStart line = none) : step1 st line = st := by
  simp [step1, h]

theorem step1_of_set {st : FuzzState} {line : List Char} {t : Nat}
    (h : st.initial_timestamp = some t) : step1 st line = st := by
  simp [step1, h]

theorem step2_of_none {st : FuzzState} {line : List Char}
    (h : _parse_cov_line line st.initial_timestamp = none) : step2 st line = st := by
  simp [step2, h]

theorem step2_initial (st : FuzzState) (line : List Char) :
    (step2 st line).initial_timestamp = st.initial_timestamp := by
  unfold step2
  split <;> rfl

theorem step2_pending (st : FuzzState) (line : List Char) :
    (step2 st line).pending_crashes = st.pending_crashes := by
  unfold step2
  split <;> rfl

theorem step2_seen (st : FuzzState) (line : List Char) :
    (step2 st line).seen_sanitizers = st.seen_sanitizers := by
  unfold step2
  split <;> rfl

theorem step2_triage (st : FuzzState) (line : List Char) :
    (step2 st line).log_triage_crash_over_time = st.log_triage_crash_over_time := by
  unfold step2
  split <;> rfl

theorem step1_seen (st : FuzzState) (line : List Char) :
    (step1 st line).seen_sanitizers = st.seen_sanitizers := by
  unfold step1
  split
  · split <;> rfl
  · rfl

theorem step1_triage (st : FuzzState) (line : List Char) :
    (step1 st line).log_triage_crash_over_time = st.log_triage_crash_over_time := by
  unfold step1
  split
  · split <;> rfl
  · rfl

theorem step3_of_none {sinkMode : Bool} {st : FuzzState} {line : List Char}
    (h : _parse_crash_line line st.initial_timestamp = none) :
    step3 sinkMode st line = .ok st := by
  simp [step3, h]

theorem step4_of_none {st : FuzzState} {line : List Char}
    (h : _parse_artifact_line line st.initial_timestamp = none) : step4 st line = st := by
  simp [step4, h]

theorem step5_of_none {st : FuzzState} {line : List Char}
    (h : strContains line JAZZER_EXIT_LOG = false) : step5 st line = st := by
  simp [step5, h]

theorem step5_pending (st : FuzzState) (line : List Char) :
    (st.pending_crashes = (step5 st line).pending_crashes) := by
  unfold step5
  split <;> rfl

theorem step3_queue {sinkMode : Bool} {st : FuzzState} {line : List Char}
    {e : Option Int} {crash : List Char} {san? : Option (List Char)}
    (hcl : _parse_crash_line line st.initial_timestamp = some (e, crash))
    (hsan : crash_2_sanitizer sinkMode crash = .ok san?) :
    ∃ st', step3 sinkMode st line = .ok st' ∧
      st'.pending_crashes = (match san? with
        | some san =>
            if !(st.seen_sanitizers.contains san) || san == SINKPOINT then
              st.pending_crashes ++ [(e, crash, san)]
            else st.pending_crashes
        | none => st.pending_crashes) ∧
      st'.seen_sanitizers = st.seen_sanitizers ∧
      st'.log_triage_crash_over_time = st.log_triage_crash_over_time ∧
      st'.initial_timestamp = st.initial_timestamp := by
  unfold step3
  rw [hcl]
  dsimp only
  simp only [hsan]
  cases san? with
  | none => exact ⟨_, rfl, rfl, rfl, rfl, rfl⟩
  | some san =>
    by_cases hseen : (!(st.seen_sanitizers.contains san) || san == SINKPOINT) = true
    · simp only [if_pos hseen]
      exact ⟨_, rfl, rfl, rfl, rfl, rfl⟩
    · simp only [if_neg hseen]
      exact ⟨_, rfl, rfl, rfl, rfl, rfl⟩

/-- C5 amended: a crash report extracted from a line is appended to the
pending queue iff its classification is non-None AND (its sanitizer class is
not yet in the seen set OR it is SINKPOINT) — the per-class dedup already
applies at crash-queueing time, not only at artifact-matching time. -/
theorem C5_queueing_dedup (sinkMode : Bool) (st : FuzzState) (line : List Char)
    (e : Option Int) (crash : List Char) (san? : Option (List Char))
    (hcl : _parse_crash_line line st.initial_timestamp = some (e, crash))
    (hsan : crash_2_sanitizer sinkMode crash = .ok san?) :
    ∃ st', processLine sinkMode st line = .ok st' ∧
      st'.pending_crashes =
        (match san? with
         | some san =>
             if !(st.seen_sanitizers.contains san) || san == SINKPOINT then
               st.pending_crashes ++ [(e, crash, san)]
             else st.pending_crashes
         | none => st.pending_crashes) := by
  have hstart := crash_not_start hcl
  have hart := crash_not_artifact st.initial_timestamp hcl
  have h1 : step1 st line = st := step1_of_none hstart
  have hcl2 : _parse_crash_line line (step2 st line).initial_timestamp = some (e, crash) := by
    rw [step2_initial]
    exact hcl
  obtain ⟨stm, h3, hpend, hseen, htri, hinit⟩ := step3_queue hcl2 hsan
  have hart2 : _parse_artifact_line line stm.initial_timestamp = none := by
    rw [hinit, step2_initial]
    exact hart
  refine ⟨step5 (step4 stm line) line, ?_, ?_⟩
  · unfold processLine
    rw [h1, h3]
  · rw [← step5_pending, step4_of_none hart2, hpend, step2_pending, step2_seen]

/-- C5 as stated is false: after the SQL Injection class has been triaged
once (first crash + artifact), a second crash line with the same non-None
classification is observed (two entries in `log_crash_over_time`) but is NOT
appended to the pending queue, which stays empty. -/
theorem C5_counterexample :
    crash_2_sanitizer false crashSQLiLine = .ok (some sanSQLi) ∧
    ((runLoop false noDumpFail initState 0
        [crashSQLiLine, artifactLine, crashSQLiLine]).2.1.log_triage_crash_over_time.map
          (fun t => t.2.1)) = [sanSQLi] ∧
    (runLoop false noDumpFail initState 0
        [crashSQLiLine, artifactLine, crashSQLiLine]).2.1.log_crash_over_time.length = 2 ∧
    (runLoop false noDumpFail initState 0
        [crashSQLiLine, artifactLine, crashSQLiLine]).2.1.pending_crashes = [] := by
  refine ⟨rfl, rfl, rfl, rfl⟩

/-- Witness for the C5 amended theorem: a concrete state in which SQL
Injection was already triaged, fed the same crash line again. -/
theorem C5_queueing_dedup_witness :
    ∃ st', processLine false
        (runLoop false noDumpFail initState 0 [crashSQLiLine, artifactLine]).2.1
        crashSQLiLine = .ok st' ∧
      st'.pending_crashes =
        (match some sanSQLi with
         | some san =>
             if !((runLoop false noDumpFail initState 0
                    [crashSQLiLine, artifactLine]).2.1.seen_sanitizers.contains san)
                  || san == SINKPOINT then
               (runLoop false noDumpFail initState 0
                  [crashSQLiLine, artifactLine]).2.1.pending_crashes
                 ++ [(none, crashSQLiLine, san)]
             else (runLoop false noDumpFail initState 0
                    [crashSQLiLine, artifactLine]).2.1.pending_crashes
         | none => (runLoop false noDumpFail initState 0
                    [crashSQLiLine, artifactLine]).2.1.pending_crashes) :=
  C5_queueing_dedup false _ crashSQLiLine none crashSQLiLine (some sanSQLi)
    (by rfl) (by rfl)

theorem beq_digit_false {d c : Char} (hc : c.isDigit = true) (hd : d.isDigit = false) :
    (d == c) = false := by
  simp only [beq_eq_false_iff_ne]
  intro he
  rw [he, hc] at hd
  exact Bool.noConfusion hd

theorem strContains_false_of_head_notMem {hay : List Char} {c : Char}
    {needle : List Char} (h : c ∉ hay) : strContains hay (c :: needle) = false := by
  by_contra hcon
  simp only [Bool.not_eq_false, strContains, List.any_eq_true] at hcon
  obtain ⟨t, ht, hp⟩ := hcon
  have hsuf : t <:+ hay := (List.mem_tails _ _).mp ht
  cases t with
  | nil => simp [List.isPrefixOf] at hp
  | cons x xs =>
    simp only [List.isPrefixOf, Bool.and_eq_true, beq_iff_eq] at hp
    obtain ⟨rfl, _⟩ := hp
    exact h (hsuf.subset (by simp))

theorem at_notMem_mkStartLine (ts : Nat) : '@' ∉ mkStartLine ts := by
  intro h
  rw [mkStartLine] at h
  rcases List.mem_append.mp h with h | h
  · have := (natToDigits_spec ts).2.2 _ h
    exact absurd this (by decide)
  · rcases List.mem_cons.mp h with h | h
    · exact absurd h (by decide)
    · have hx : '@' ∈ START_TEXT := h
      exact absurd hx (by decide)

theorem takeDigits_mkStartLine (ts : Nat) :
    takeDigits (mkStartLine ts) = some (ts, ' ' :: START_TEXT) := by
  rw [mkStartLine]
  exact takeDigits_natToDigits ts _ (by simp [headNotDigit])

/-- C9 amended: once the baseline timestamp has been set, a later run-start
banner line — though still a recognizable banner — is not even matched (the
whole start-line check is guarded by `initial_timestamp is None`): processing
it leaves the state completely unchanged; in particular it does not set the
needs-dump flag and triggers no dump. -/
theorem C9_second_start_ignored (sinkMode : Bool) (st : FuzzState) (t ts : Nat)
    (hset : st.initial_timestamp = some t) :
    matchFuzzStart (mkStartLine ts) = some ts ∧
    processLine sinkMode st (mkStartLine ts) = .ok st := by
  have htd := takeDigits_mkStartLine ts
  obtain ⟨c0, cs0, hline, hdig⟩ := takeDigits_some_head htd
  constructor
  · rw [matchFuzzStart, htd]
    simp only [Option.bind_eq_bind, Option.some_bind]
    rw [if_pos (by decide)]
    rw [show matchWild FUZZ_START_BANNER START_TEXT = some [] from rfl]
    rfl
  · have h2 : _parse_cov_line (mkStartLine ts) st.initial_timestamp = none := by
      have hnew : matchNewCov (mkStartLine ts) = none := by
        rw [matchNewCov, htd]
        simp only [Option.bind_eq_bind, Option.some_bind]
        rw [if_pos (by decide)]
        rfl
      have hold : matchOldCov (mkStartLine ts) = none := by
        rw [matchOldCov, hline]
        have hne : ('#' == c0) = false := beq_digit_false hdig (by decide)
        simp [dropLit, hne]
      simp [_parse_cov_line, hnew, hold]
    have h3 : _parse_crash_line (mkStartLine ts) st.initial_timestamp = none := by
      rw [_parse_crash_line, htd]
      dsimp only
      rw [show (isPySpace ' ' && CRASH_BANNER.isPrefixOf START_TEXT) = false from by decide]
      have hpl : CRASH_BANNER.isPrefixOf (mkStartLine ts) = false := by
        rw [hline]
        rw [show CRASH_BANNER = '=' :: "= Java Exception:".data from rfl]
        have hne : ('=' == c0) = false := beq_digit_false hdig (by decide)
        simp [List.isPrefixOf, hne]
      simp [hpl]
    have h4 : _parse_artifact_line (mkStartLine ts) st.initial_timestamp = none := by
      rw [_parse_artifact_line, htd]
      simp only [Option.bind_eq_bind, Option.some_bind]
      rw [if_pos (by decide)]
      rw [show dropLit "artifact_prefix=".data START_TEXT = none from rfl]
      simp only [Option.none_bind]
      have hpl : dropLit "artifact_prefix=".data (mkStartLine ts) = none := by
        rw [hline]
        have hne : ('a' == c0) = false := beq_digit_false hdig (by decide)
        rw [show ("artifact_prefix=".data) = 'a' :: "rtifact_prefix=".data from rfl]
        simp [dropLit, hne]
      rw [hpl]
    have h5 : strContains (mkStartLine ts) JAZZER_EXIT_LOG = false := by
      rw [show JAZZER_EXIT_LOG = '@' :: "@@@@ exit code of Jazzer".data from rfl]
      exact strContains_false_of_head_notMem (at_notMem_mkStartLine ts)
    have h1 : step1 st (mkStartLine ts) = st := step1_of_set hset
    unfold processLine
    rw [h1, step2_of_none h2, step3_of_none h3]
    dsimp only
    rw [step4_of_none h4, step5_of_none h5]

/-- C9 fails: in a stream with two run-start banner lines, the second line is
still a recognizable banner, yet exactly one dump fires (for the first line
only) and the needs-dump flag is not set after the second line, because the
start-line match is guarded by `initial_timestamp is None`. -/
theorem C9_counterexample :
    matchFuzzStart (pyStrip (mkStartLine 2000)) = some 2000 ∧
    (runLoop false noDumpFail initState 0
        [mkStartLine 1000, mkStartLine 2000]).2.2 = 1 ∧
    (runLoop false noDumpFail initState 0
        [mkStartLine 1000, mkStartLine 2000]).2.1.need_dump = false := by
  refine ⟨rfl, rfl, rfl⟩

/-- Witness for the C9 amended theorem: the state right after the first start
line, fed a second start line. -/
theorem C9_second_start_ignored_witness :
    matchFuzzStart (mkStartLine 2000) = some 2000 ∧
    processLine false
        (runLoop false noDumpFail initState 0 [mkStartLine 1000]).2.1
        (mkStartLine 2000)
      = .ok (runLoop false noDumpFail initState 0 [mkStartLine 1000]).2.1 :=
  C9_second_start_ignored false _ 1000 2000 (by rfl)

theorem countClass_nil (c : List Char) : countClass c [] = 0 := rfl

theorem countClass_append (c : List Char) (l1 l2 : List TriagedCrash) :
    countClass c (l1 ++ l2) = countClass c l1 + countClass c l2 := by
  simp [countClass, List.filter_append]

theorem countClass_cons (c : List Char) (tr : TriagedCrash) (l : List TriagedCrash) :
    countClass c (tr :: l)
      = (if tr.2.1 == c then 1 else 0) + countClass c l := by
  by_cases h : (tr.2.1 == c) = true
  · simp [countClass, List.filter_cons, h]
    omega
  · simp only [Bool.not_eq_true] at h
    simp [countClass, List.filter_cons, h]

theorem mem_addSeen {x c : List Char} {s : List (List Char)} :
    c ∈ addSeen x s ↔ (c = x ∨ c ∈ s) := by
  unfold addSeen
  split
  · rename_i hx
    constructor
    · exact Or.inr
    · rintro (rfl | h)
      · simpa using hx
      · exact h
  · simp [eq_comm]

theorem triageScan_class (artTime : Option Int) (artifact : List Char) (c : List Char)
    (hc : c ≠ SINKPOINT) :
    ∀ (pending : List PendingCrash) (seen : List (List Char)),
      (c ∈ seen → countClass c (triageScan artTime artifact pending seen).2.1 = 0) ∧
      countClass c (triageScan artTime artifact pending seen).2.1 ≤ 1 ∧
      (c ∈ seen → c ∈ (triageScan artTime artifact pending seen).2.2.1) ∧
      (1 ≤ countClass c (triageScan artTime artifact pending seen).2.1 →
        c ∈ (triageScan artTime artifact pending seen).2.2.1) := by
  intro pending
  induction pending with
  | nil =>
    intro seen
    simp [triageScan, countClass]
  | cons pc rest ih =>
    intro seen
    obtain ⟨ct, crash, san⟩ := pc
    cases he : eligibleB artTime ct with
    | false =>
      obtain ⟨h1, h2, h3, h4⟩ := ih seen
      rcases hEq : triageScan artTime artifact rest seen with ⟨p, ⟨t, ⟨s, d⟩⟩⟩
      rw [hEq] at h1 h2 h3 h4
      simp [triageScan, he, hEq]
      exact ⟨h1, h2, h3, h4⟩
    | true =>
      cases hs : (!(seen.contains san) || san == SINKPOINT) with
      | false =>
        obtain ⟨h1, h2, h3, h4⟩ := ih seen
        rcases hEq : triageScan artTime artifact rest seen with ⟨p, ⟨t, ⟨s, d⟩⟩⟩
        rw [hEq] at h1 h2 h3 h4
        simp only [Bool.or_eq_false_iff, Bool.not_eq_false, beq_eq_false_iff_ne] at hs
        have hmem : san ∈ seen := by simpa using hs.1
        simp [triageScan, he, hEq, hmem, hs.2]
        exact ⟨h1, h2, h3, h4⟩
      | true =>
        obtain ⟨h1, h2, h3, h4⟩ := ih (addSeen san seen)
        rcases hEq : triageScan artTime artifact rest (addSeen san seen) with ⟨p, ⟨t, ⟨s, d⟩⟩⟩
        rw [hEq] at h1 h2 h3 h4
        have hs2 : san ∉ seen ∨ san = SINKPOINT := by simpa using hs
        by_cases hsc : san = c
        · subst hsc
          have hnotin : san ∉ seen := by
            rcases hs2 with h | h
            · exact h
            · exact absurd h hc
          have hcnt : countClass san t = 0 :=
            h1 (mem_addSeen.mpr (Or.inl rfl))
          simp [triageScan, he, hs2, hEq, countClass_cons, hcnt]
          refine ⟨fun hin => absurd hin hnotin, fun hin => absurd hin hnotin, ?_⟩
          exact h3 (mem_addSeen.mpr (Or.inl rfl))
        · have hmm : c ∈ addSeen san seen ↔ c ∈ seen := by
            rw [mem_addSeen]
            constructor
            · rintro (rfl | h)
              · exact absurd rfl hsc
              · exact h
            · exact Or.inr
          have hne : (san == c) = false := by
            simpa using hsc
          simp [triageScan, he, hs2, hEq, countClass_cons, hne]
          refine ⟨fun hin => h1 (hmm.mpr hin), h2, fun hin => h3 (hmm.mpr hin), h4⟩

theorem step3_triage_seen {sinkMode : Bool} {st st' : FuzzState} {line : List Char}
    (h : step3 sinkMode st line = .ok st') :
    st'.log_triage_crash_over_time = st.log_triage_crash_over_time ∧
      st'.seen_sanitizers = st.seen_sanitizers ∧
      st'.initial_timestamp = st.initial_timestamp := by
  unfold step3 at h
  cases hcl : _parse_crash_line line st.initial_timestamp with
  | none =>
    rw [hcl] at h
    dsimp only at h
    injection h with h
    subst h
    exact ⟨rfl, rfl, rfl⟩
  | some p =>
    obtain ⟨e, crash⟩ := p
    rw [hcl] at h
    dsimp only at h
    cases hsan : crash_2_sanitizer sinkMode crash with
    | error err => rw [hsan] at h; exact absurd h (by simp)
    | ok san? =>
      rw [hsan] at h
      dsimp only at h
      injection h with h
      subst h
      cases san? with
      | none => exact ⟨rfl, rfl, rfl⟩
      | some san =>
        dsimp only
        split <;> exact ⟨rfl, rfl, rfl⟩

theorem step4_shape (st : FuzzState) (line : List Char) :
    step4 st line = st ∨
    (∃ e artifact,
      (step4 st line).log_triage_crash_over_time
        = st.log_triage_crash_over_time
            ++ (triageScan e artifact st.pending_crashes st.seen_sanitizers).2.1 ∧
      (step4 st line).seen_sanitizers
        = (triageScan e artifact st.pending_crashes st.seen_sanitizers).2.2.1) := by
  unfold step4
  cases ha : _parse_artifact_line line st.initial_timestamp with
  | none => exact Or.inl rfl
  | some p =>
    obtain ⟨e, artifact⟩ := p
    refine Or.inr ⟨e, artifact, ?_, ?_⟩ <;>
      rcases hEq : triageScan e artifact st.pending_crashes st.seen_sanitizers
          with ⟨pq, ⟨tq, ⟨sq, dq⟩⟩⟩ <;>
        simp [hEq]

theorem step5_triage (st : FuzzState) (line : List Char) :
    (step5 st line).log_triage_crash_over_time = st.log_triage_crash_over_time := by
  unfold step5
  split <;> rfl

theorem step5_seen (st : FuzzState) (line : List Char) :
    (step5 st line).seen_sanitizers = st.seen_sanitizers := by
  unfold step5
  split <;> rfl

theorem processLine_classInv {sinkMode : Bool} {st st' : FuzzState} {line : List Char}
    {c : List Char} (hc : c ≠ SINKPOINT)
    (h : processLine sinkMode st line = .ok st')
    (h1 : countClass c st.log_triage_crash_over_time ≤ 1)
    (h2 : 1 ≤ countClass c st.log_triage_crash_over_time → c ∈ st.seen_sanitizers) :
    countClass c st'.log_triage_crash_over_time ≤ 1 ∧
      (1 ≤ countClass c st'.log_triage_crash_over_time → c ∈ st'.seen_sanitizers) := by
  unfold processLine at h
  cases h3 : step3 sinkMode (step2 (step1 st line) line) line with
  | error err => rw [h3] at h; exact absurd h (by simp)
  | ok st3 =>
    rw [h3] at h
    dsimp only at h
    injection h with h
    subst h
    obtain ⟨ht3, hs3, _⟩ := step3_triage_seen h3
    have ht3' : st3.log_triage_crash_over_time = st.log_triage_crash_over_time := by
      rw [ht3, step2_triage, step1_triage]
    have hs3' : st3.seen_sanitizers = st.seen_sanitizers := by
      rw [hs3, step2_seen, step1_seen]
    rw [step5_triage, step5_seen]
    rcases step4_shape st3 line with heq | ⟨e, artifact, htr, hsn⟩
    · rw [heq, ht3', hs3']
      exact ⟨h1, h2⟩
    · rw [htr, hsn, ht3', hs3']
      obtain ⟨g1, g2, g3, g4⟩ :=
        triageScan_class e artifact c hc st3.pending_crashes st.seen_sanitizers
      rw [countClass_append]
      by_cases hmem : c ∈ st.seen_sanitizers
      · rw [g1 hmem]
        exact ⟨by omega, fun _ => g3 hmem⟩
      · have hz : countClass c st.log_triage_crash_over_time = 0 := by
          by_contra hz
          exact hmem (h2 (by omega))
        rw [hz]
        exact ⟨by omega, fun hge => g4 (by omega)⟩

theorem runLoop_classInv (sinkMode : Bool) (dumpFails : Nat → Bool) (c : List Char)
    (hc : c ≠ SINKPOINT) :
    ∀ (lines : List (List Char)) (st : FuzzState) (d : Nat),
      countClass c st.log_triage_crash_over_time ≤ 1 →
      (1 ≤ countClass c st.log_triage_crash_over_time → c ∈ st.seen_sanitizers) →
      countClass c
          (runLoop sinkMode dumpFails st d lines).2.1.log_triage_crash_over_time ≤ 1 := by
  intro lines
  induction lines with
  | nil =>
    intro st d h1 h2
    simpa [runLoop] using h1
  | cons l rest ih =>
    intro st d h1 h2
    rw [runLoop]
    cases hpl : processLine sinkMode st (pyStrip l) with
    | error err => simpa using h1
    | ok st' =>
      obtain ⟨g1, g2⟩ := processLine_classInv hc hpl h1 h2
      dsimp only
      by_cases hnd : st'.need_dump = true
      · rw [if_pos hnd]
        by_cases hdf : dumpFails d = true
        · rw [if_pos hdf]
          simpa using g1
        · rw [if_neg hdf]
          dsimp only
          exact ih { st' with need_dump := false } (d + 1) g1 g2
      · rw [if_neg hnd]
        dsimp only
        exact ih st' d g1 g2

/-- C1: for every sanitizer class other than SINKPOINT and every input stream
(and any dump-failure pattern), the final `log_triage_crash_over_time` in the
synced `fuzz_data` contains at most one entry with that class, no matter how
crash and artifact events interleave. -/
theorem C1_at_most_one_per_class (sinkMode : Bool) (dumpFails : Nat → Bool)
    (lines : List (List Char)) (c : List Char) (hc : c ≠ SINKPOINT) :
    countClass c
        (parse_log_in_stream sinkMode dumpFails lines).log_triage_crash_over_time ≤ 1 :=
  runLoop_classInv sinkMode dumpFails c hc lines initState 0
    (by simp [initState, countClass]) (by simp [initState, countClass])

/-- Witness for C1: a stream with two SQL Injection crash/artifact pairs. -/
theorem C1_at_most_one_per_class_witness :
    sanSQLi ≠ SINKPOINT ∧
    countClass sanSQLi
        (parse_log_in_stream false noDumpFail
          [crashSQLiLine, artifactLine, crashSQLiLine, artifactLine]).log_triage_crash_over_time
      ≤ 1 :=
  ⟨by decide,
   C1_at_most_one_per_class false noDumpFail
     [crashSQLiLine, artifactLine, crashSQLiLine, artifactLine] sanSQLi (by decide)⟩

theorem findLastSuffix_all_none {α : Type} {p : List Char → Option α} :
    ∀ {l : List Char}, (∀ t, t <:+ l → p t = none) → findLastSuffix p l = none := by
  intro l
  induction l with
  | nil => intro h; exact h [] (by simp)
  | cons c rest ih =>
    intro h
    have hr : findLastSuffix p rest = none :=
      ih (fun t ht => h t (ht.trans (List.suffix_cons c rest)))
    simp only [findLastSuffix, hr]
    exact h (c :: rest) (List.suffix_refl _)

theorem findLastSuffix_append_some {α : Type} {p : List Char → Option α}
    {l : List Char} {r : α} (h : findLastSuffix p l = some r) (xs : List Char) :
    findLastSuffix p (xs ++ l) = some r := by
  induction xs with
  | nil => exact h
  | cons x t ih => simp only [List.cons_append, findLastSuffix, List.append_eq, ih]

theorem findLastSuffix_cons_of_none {α : Type} {p : List Char → Option α}
    {l : List Char} (h : findLastSuffix p l = none) (c : Char) :
    findLastSuffix p (c :: l) = p (c :: l) := by
  simp only [findLastSuffix, h]

theorem suffix_append_cases {t xs ys : List Char} (h : t <:+ xs ++ ys) :
    t <:+ ys ∨ ∃ xs', xs' <:+ xs ∧ xs' ≠ [] ∧ t = xs' ++ ys := by
  induction xs with
  | nil => exact Or.inl (by simpa using h)
  | cons x xt ih =>
    obtain ⟨u, hu⟩ := h
    cases u with
    | nil =>
      right
      refine ⟨x :: xt, List.suffix_refl _, by simp, ?_⟩
      have h3 : t = x :: (xt ++ ys) := by simpa using hu
      rw [h3]
      rfl
    | cons v vt =>
      have h4 : v = x ∧ vt ++ t = xt ++ ys := by simpa using hu
      have h2 : t <:+ xt ++ ys := ⟨vt, h4.2⟩
      rcases ih h2 with h3 | ⟨xs', hs, hne, rfl⟩
      · exact Or.inl h3
      · exact Or.inr ⟨xs', hs.trans (List.suffix_cons x xt), hne, rfl⟩

theorem findLastSuffix_none_key {α : Type} {p : List Char → Option α} (key : Char)
    (hnil : p [] = none) (hp : ∀ c u, c ≠ key → p (c :: u) = none)
    {l : List Char} (hk : key ∉ l) : findLastSuffix p l = none := by
  apply findLastSuffix_all_none
  intro t ht
  cases t with
  | nil => exact hnil
  | cons c u =>
    refine hp c u (fun hne => hk ?_)
    subst hne
    exact ht.subset (by simp)

theorem takeRun_digits {b : List Char} (hd : ∀ c ∈ b, c.isDigit = true) :
    takeRun isLowerDigit b = (b, []) := by
  induction b with
  | nil => rfl
  | cons c rest ih =>
    have hc : isLowerDigit c = true := by
      simp [isLowerDigit, hd c (by simp)]
    simp only [takeRun, hc, if_true, ih (fun x hx => hd x (by simp [hx]))]

theorem dropLit_self (xs rest : List Char) : dropLit xs (xs ++ rest) = some rest := by
  induction xs with
  | nil => rfl
  | cons x t ih => simp [dropLit, ih]

theorem artifactSlash_digit_none {b : List Char} (hd : ∀ c ∈ b, c.isDigit = true) :
    ∀ t, t <:+ b → artifactSlash t = none := by
  intro t ht
  cases t with
  | nil => rfl
  | cons c u =>
    have hc : c.isDigit = true := hd c (ht.subset (by simp))
    have hne : ('/' == c) = false := beq_digit_false hc (by decide)
    simp [artifactSlash, dropLit, hne]

theorem artifactSlash_inner_none {b : List Char} (hd : ∀ c ∈ b, c.isDigit = true) :
    findLastSuffix artifactSlash ("artifacts/crash-".data ++ b) = none := by
  apply findLastSuffix_all_none
  intro t ht
  rcases suffix_append_cases ht with h | ⟨xs', hs, hne, rfl⟩
  · exact artifactSlash_digit_none hd t h
  · have hmem : xs' ∈ ("artifacts/crash-".data).tails := (List.mem_tails _ _).mpr hs
    fin_cases hmem <;> first | exact absurd rfl hne | rfl

theorem artifactSlash_template {b : List Char} (hb : b ≠ [])
    (hd : ∀ c ∈ b, c.isDigit = true) :
    findLastSuffix artifactSlash ("./artifacts/crash-".data ++ b)
      = some ("crash-".data ++ b) := by
  have hinner := artifactSlash_inner_none hd
  have hstep : findLastSuffix artifactSlash ('/' :: ("artifacts/crash-".data ++ b))
      = artifactSlash ('/' :: ("artifacts/crash-".data ++ b)) :=
    findLastSuffix_cons_of_none hinner '/'
  have hval : artifactSlash ('/' :: ("artifacts/crash-".data ++ b))
      = some ("crash-".data ++ b) := by
    have harr : '/' :: ("artifacts/crash-".data ++ b)
        = "/artifacts/".data ++ ("crash-".data ++ b) := by rfl
    rw [harr, artifactSlash]
    rw [dropLit_self]
    simp only [Option.bind_eq_bind, Option.some_bind]
    rw [artifactId, dropLit_self]
    simp only [Option.bind_eq_bind, Option.some_bind]
    cases b with
    | nil => exact absurd rfl hb
    | cons c rest =>
      have hc : isLowerDigit c = true := by
        simp [isLowerDigit, hd c (by simp)]
      dsimp only
      rw [if_pos hc, takeRun_digits hd]
  have hfin : findLastSuffix artifactSlash ('.' :: ('/' :: ("artifacts/crash-".data ++ b)))
      = some ("crash-".data ++ b) :=
    findLastSuffix_append_some (hstep.trans hval) ['.']
  have harr2 : "./artifacts/crash-".data ++ b
      = '.' :: ('/' :: ("artifacts/crash-".data ++ b)) := by rfl
  rw [harr2, hfin]

theorem artifactSemi_tail_none {b : List Char} (hd : ∀ c ∈ b, c.isDigit = true) :
    findLastSuffix artifactSemi (" Test unit written to ./artifacts/crash-".data ++ b)
      = none := by
  apply findLastSuffix_none_key ';' rfl
  · intro c u hne
    have h2 : (';' == c) = false := by
      simp only [beq_eq_false_iff_ne]
      exact fun he => hne he.symm
    simp [artifactSemi, dropLit, h2]
  · intro hmem
    rcases List.mem_append.mp hmem with h | h
    · exact absurd h (by decide)
    · have := hd _ h
      exact absurd this (by decide)

theorem artifactBody_digits {b : List Char} (hb : b ≠ [])
    (hd : ∀ c ∈ b, c.isDigit = true) :
    artifactBody ("./; Test unit written to ./artifacts/crash-".data ++ b)
      = some ("crash-".data ++ b) := by
  have htail := artifactSemi_tail_none hd
  have hsemi : artifactSemi (';' :: (" Test unit written to ./artifacts/crash-".data ++ b))
      = some ("crash-".data ++ b) := by
    have harr : ';' :: (" Test unit written to ./artifacts/crash-".data ++ b)
        = "; Test unit written to ".data ++ ("./artifacts/crash-".data ++ b) := by rfl
    rw [harr, artifactSemi, dropLit_self]
    simp only [Option.bind_eq_bind, Option.some_bind]
    exact artifactSlash_template hb hd
  have hkey : findLastSuffix artifactSemi
      (';' :: (" Test unit written to ./artifacts/crash-".data ++ b))
      = some ("crash-".data ++ b) := by
    rw [findLastSuffix_cons_of_none htail ';', hsemi]
  have harr2 : "./; Test unit written to ./artifacts/crash-".data ++ b
      = "./".data ++ (';' :: (" Test unit written to ./artifacts/crash-".data ++ b)) := by
    rfl
  rw [artifactBody, harr2]
  exact findLastSuffix_append_some hkey _

theorem parse_artifact_mkLine (i : Nat) (t0 : Option Nat) :
    _parse_artifact_line (mkArtifactLine i) t0
      = some (none, "crash-".data ++ natToDigits i) := by
  obtain ⟨_, hne, hall⟩ := natToDigits_spec i
  rw [_parse_artifact_line]
  have harr : mkArtifactLine i
      = "artifact_prefix=".data
          ++ ("./; Test unit written to ./artifacts/crash-".data ++ natToDigits i) := by
    rw [mkArtifactLine]
    rfl
  have htd : takeDigits (mkArtifactLine i) = none := by
    rw [harr]
    rfl
  rw [htd]
  simp only [Option.bind_eq_bind, Option.none_bind]
  rw [harr, dropLit_self]
  dsimp only
  rw [artifactBody_digits hne hall]

theorem digit_beq_false {c d : Char} (hc : c.isDigit = true) (hd : d.isDigit = false) :
    (c == d) = false := by
  simp only [beq_eq_false_iff_ne]
  intro he
  rw [← he, hc] at hd
  exact Bool.noConfusion hd

theorem isPySpace_of_digit {c : Char} (h : c.isDigit = true) : isPySpace c = false := by
  rw [isPySpace,
    digit_beq_false h (show (' ').isDigit = false from by decide),
    digit_beq_false h (show ('\t').isDigit = false from by decide),
    digit_beq_false h (show ('\n').isDigit = false from by decide),
    digit_beq_false h (show ('\r').isDigit = false from by decide),
    digit_beq_false h (show ('\x0b').isDigit = false from by decide),
    digit_beq_false h (show ('\x0c').isDigit = false from by decide)]
  rfl

theorem pyStrip_eq_self {l : List Char}
    (h1 : ∀ c, l.head? = some c → isPySpace c = false)
    (h2 : ∀ c, l.getLast? = some c → isPySpace c = false) :
    pyStrip l = l := by
  cases l with
  | nil => rfl
  | cons c rest =>
    have hc := h1 c rfl
    rw [pyStrip, List.dropWhile_cons, hc]
    simp only [Bool.false_eq_true, if_false]
    rw [pyRStrip]
    cases hrev : (c :: rest).reverse with
    | nil => simp at hrev
    | cons d t =>
      have hd : isPySpace d = false := by
        apply h2
        rw [← List.head?_reverse, hrev]
        rfl
      have hdw : List.dropWhile isPySpace (d :: t) = d :: t := by
        rw [List.dropWhile_cons, hd]
        simp
      rw [hdw, ← hrev, List.reverse_reverse]

theorem pyStrip_mkArtifactLine (i : Nat) : pyStrip (mkArtifactLine i) = mkArtifactLine i := by
  obtain ⟨_, hne, hall⟩ := natToDigits_spec i
  apply pyStrip_eq_self
  · intro c hc
    rw [show mkArtifactLine i
        = 'a' :: ("rtifact_prefix=./; Test unit written to ./artifacts/crash-".data
            ++ natToDigits i) from rfl] at hc
    simp only [List.head?_cons, Option.some.injEq] at hc
    subst hc
    decide
  · intro c hc
    rw [mkArtifactLine, List.getLast?_append_of_ne_nil _ hne] at hc
    have hmem : c ∈ natToDigits i := by
      obtain ⟨hh, hx⟩ := List.mem_getLast?_eq_getLast
        (l := natToDigits i) (x := c) (by simp [Option.mem_def, hc])
      rw [hx]
      exact List.getLast_mem hh
    exact isPySpace_of_digit (hall c hmem)

theorem processLine_sinkCrash (st : FuzzState) :
    processLine true st sinkCrashLine
      = .ok { st with
          log_crash_over_time := st.log_crash_over_time ++ [(none, sinkCrashLine)],
          pending_crashes := st.pending_crashes ++ [(none, sinkCrashLine, SINKPOINT)] } := by
  have h1 : step1 st sinkCrashLine = st := step1_of_none rfl
  have h2 : step2 st sinkCrashLine = st := step2_of_none rfl
  unfold processLine
  rw [h1, h2]
  have h3 : step3 true st sinkCrashLine
      = .ok { st with
          log_crash_over_time := st.log_crash_over_time ++ [(none, sinkCrashLine)],
          pending_crashes := st.pending_crashes ++ [(none, sinkCrashLine, SINKPOINT)] } := by
    unfold step3
    rw [show _parse_crash_line sinkCrashLine st.initial_timestamp
        = some (none, sinkCrashLine) from rfl]
    dsimp only
    rw [show crash_2_sanitizer true sinkCrashLine = .ok (some SINKPOINT) from rfl]
    dsimp only
    rw [if_pos (by simp)]
  rw [h3]
  dsimp only
  have h4 : ∀ s : FuzzState, step4 s sinkCrashLine = s := fun s => step4_of_none rfl
  have h5 : ∀ s : FuzzState, step5 s sinkCrashLine = s := fun s => step5_of_none rfl
  rw [h4, h5]

theorem at_notMem_mkArtifactLine (i : Nat) : '@' ∉ mkArtifactLine i := by
  intro h
  rw [mkArtifactLine] at h
  rcases List.mem_append.mp h with h | h
  · exact absurd h (by decide)
  · exact absurd ((natToDigits_spec i).2.2 _ h) (by decide)

theorem processLine_mkArtifact (st : FuzzState) (i : Nat) :
    processLine true st (mkArtifactLine i)
      = .ok { st with
          artifact_over_time :=
            st.artifact_over_time ++ [(none, "crash-".data ++ natToDigits i)],
          pending_crashes :=
            (triageScan none ("crash-".data ++ natToDigits i)
              st.pending_crashes st.seen_sanitizers).1,
          log_triage_crash_over_time :=
            st.log_triage_crash_over_time
              ++ (triageScan none ("crash-".data ++ natToDigits i)
                    st.pending_crashes st.seen_sanitizers).2.1,
          seen_sanitizers :=
            (triageScan none ("crash-".data ++ natToDigits i)
              st.pending_crashes st.seen_sanitizers).2.2.1,
          need_dump :=
            st.need_dump || (triageScan none ("crash-".data ++ natToDigits i)
              st.pending_crashes st.seen_sanitizers).2.2.2 } := by
  have h1 : step1 st (mkArtifactLine i) = st := step1_of_none rfl
  have h2 : step2 st (mkArtifactLine i) = st := step2_of_none rfl
  have h3 : step3 true st (mkArtifactLine i) = .ok st := step3_of_none rfl
  unfold processLine
  rw [h1, h2, h3]
  dsimp only
  have h5 : strContains (mkArtifactLine i) JAZZER_EXIT_LOG = false := by
    rw [show JAZZER_EXIT_LOG = '@' :: "@@@@ exit code of Jazzer".data from rfl]
    exact strContains_false_of_head_notMem (at_notMem_mkArtifactLine i)
  rw [step5_of_none h5]
  unfold step4
  rw [parse_artifact_mkLine i]

theorem triageScan_sink_pair (artifact : List Char) (seen : List (List Char)) :
    triageScan none artifact [(none, sinkCrashLine, SINKPOINT)] seen
      = ([], [(none, SINKPOINT, sinkCrashLine, artifact)], addSeen SINKPOINT seen, true) := by
  simp [triageScan, eligibleB]

theorem c7_seg (n : Nat) :
    ∀ (s : Nat) (st : FuzzState) (d : Nat),
      st.pending_crashes = [] →
      st.need_dump = false →
      (runLoop true noDumpFail st d
          ((List.range' s n).flatMap
            (fun i => [sinkCrashLine, mkArtifactLine i]))).2.1.log_triage_crash_over_time
        = st.log_triage_crash_over_time
            ++ (List.range' s n).map
                (fun i => ((none : Option Int), SINKPOINT, sinkCrashLine,
                  "crash-".data ++ natToDigits i)) := by
  induction n with
  | zero =>
    intro s st d _ _
    simp [runLoop, List.range']
  | succ m ih =>
    intro s st d hpend hnd
    rw [show List.range' s (m + 1) = s :: List.range' (s + 1) m from rfl]
    rw [List.flatMap_cons]
    rw [show ([sinkCrashLine, mkArtifactLine s]
          ++ (List.range' (s + 1) m).flatMap (fun i => [sinkCrashLine, mkArtifactLine i]))
        = sinkCrashLine :: mkArtifactLine s
            :: (List.range' (s + 1) m).flatMap (fun i => [sinkCrashLine, mkArtifactLine i])
      from rfl]
    rw [runLoop]
    rw [show pyStrip sinkCrashLine = sinkCrashLine from rfl]
    rw [processLine_sinkCrash st]
    dsimp only
    rw [if_neg (by simp [hnd])]
    dsimp only
    rw [runLoop, pyStrip_mkArtifactLine]
    rw [processLine_mkArtifact _ s]
    dsimp only
    rw [hpend]
    simp only [List.nil_append]
    rw [triageScan_sink_pair]
    dsimp only
    rw [if_pos (by simp [hnd])]
    rw [show noDumpFail d = false from rfl]
    simp only [Bool.false_eq_true, if_false]
    rw [ih (s + 1) _ (d + 1) rfl rfl]
    simp

theorem natToDigits_injective : Function.Injective natToDigits := by
  intro a b h
  have ha := (natToDigits_spec a).1
  have hb := (natToDigits_spec b).1
  rw [← ha, ← hb, h]

/-- C7: the SINKPOINT class is exempt from per-class dedup: a stream of `n`
successive sink-hit crash/artifact pairs yields exactly `n` SINKPOINT entries
in the final `log_triage_crash_over_time` (one per pair, pairwise distinct);
an earlier SINKPOINT triage never blocks a later one. -/
theorem C7_sinkpoint_exemption (n : Nat) :
    (parse_log_in_stream true noDumpFail (c7Stream n)).log_triage_crash_over_time
        = (List.range' 1 n).map
            (fun i => ((none : Option Int), SINKPOINT, sinkCrashLine,
              "crash-".data ++ natToDigits i)) ∧
    (parse_log_in_stream true noDumpFail (c7Stream n)).log_triage_crash_over_time.length
        = n ∧
    (∀ tr ∈ (parse_log_in_stream true noDumpFail (c7Stream n)).log_triage_crash_over_time,
        tr.2.1 = SINKPOINT) ∧
    (parse_log_in_stream true noDumpFail (c7Stream n)).log_triage_crash_over_time.Nodup := by
  have hmain : (parse_log_in_stream true noDumpFail
        (c7Stream n)).log_triage_crash_over_time
      = (List.range' 1 n).map (fun i => ((none : Option Int), SINKPOINT, sinkCrashLine,
          "crash-".data ++ natToDigits i)) := by
    have hseg := c7_seg n 1 initState 0 rfl rfl
    rw [parse_log_in_stream, c7Stream]
    simpa [toSync, initState] using hseg
  refine ⟨hmain, ?_, ?_, ?_⟩
  · rw [hmain]
    simp
  · rw [hmain]
    intro tr htr
    simp only [List.mem_map] at htr
    obtain ⟨i, _, rfl⟩ := htr
    rfl
  · rw [hmain]
    apply List.Nodup.map
    · intro a b hab
      simp only [Prod.mk.injEq] at hab
      exact natToDigits_injective (by simpa using hab.2.2.2)
    · exact List.nodup_range' 1 n

theorem toSync_reset_dump (st : FuzzState) :
    toSync { st with need_dump := false } = toSync st := rfl

theorem runLoop_prefix (sm : Bool) (df : Nat → Bool) :
    ∀ (lines : List (List Char)) (st : FuzzState) (d : Nat),
      ∃ k ≤ lines.length,
        toSync (runLoop sm df st d lines).2.1
          = toSync (runLoop sm noDumpFail st d (lines.take k)).2.1 := by
  intro lines
  induction lines with
  | nil => exact fun st d => ⟨0, by simp, rfl⟩
  | cons l rest ih =>
    intro st d
    cases hpl : processLine sm st (pyStrip l) with
    | error e =>
      refine ⟨0, by simp, ?_⟩
      simp [runLoop, hpl]
    | ok st' =>
      by_cases hnd : st'.need_dump = true
      · by_cases hdf : df d = true
        · refine ⟨1, by simp, ?_⟩
          rw [show (l :: rest).take 1 = [l] from by simp]
          rw [runLoop, runLoop, hpl]
          dsimp only
          rw [if_pos hnd, if_pos hdf, if_pos hnd]
          rw [show noDumpFail d = false from rfl]
          simp only [Bool.false_eq_true, if_false]
          rw [show runLoop sm noDumpFail { st' with need_dump := false } (d + 1) [] =
              ([], { st' with need_dump := false }, d + 1) from rfl]
          rfl
        · obtain ⟨k, hk, heq⟩ := ih { st' with need_dump := false } (d + 1)
          refine ⟨k + 1, by simpa using hk, ?_⟩
          rw [show (l :: rest).take (k + 1) = l :: rest.take k from rfl]
          rw [runLoop, runLoop, hpl]
          dsimp only
          rw [if_pos hnd, if_neg hdf, if_pos hnd]
          rw [show noDumpFail d = false from rfl]
          simp only [Bool.false_eq_true, if_false]
          exact heq
      · obtain ⟨k, hk, heq⟩ := ih st' d
        refine ⟨k + 1, by simpa using hk, ?_⟩
        rw [show (l :: rest).take (k + 1) = l :: rest.take k from rfl]
        rw [runLoop, runLoop, hpl]
        dsimp only
        rw [if_neg hnd, if_neg hnd]
        dsimp only
        exact heq

/-- C2 amended: an error raised while processing a line (for instance a failing
dump of the aggregate, or a hypothetical extraction/triage exception) escapes
the per-line body and is caught only by the `try` wrapping the whole loop, so
it never propagates to the caller and the synced aggregate state as of the
last fully-processed line is preserved — the observable result always equals
error-free processing of some prefix of the stream — but the remaining lines
after the error are NOT processed. -/
theorem C2_error_stops_at_prefix (sinkMode : Bool) (dumpFails : Nat → Bool)
    (lines : List (List Char)) :
    ∃ k ≤ lines.length,
      parse_log_in_stream sinkMode dumpFails lines
        = parse_log_in_stream sinkMode noDumpFail (lines.take k) :=
  runLoop_prefix sinkMode dumpFails lines initState 0

/-- C2 as stated is false: in a two-line stream whose first line triggers a
dump that raises (a persistence failure), the second line — a well-formed
timestamped coverage line that contributes a coverage sample when dumps
succeed — is never processed: the final synced `cov_over_time` is empty, even
though the error arose while processing the first line only. -/
theorem C2_counterexample :
    _parse_cov_line (pyStrip "1010 #5 INITED cov: 100 ft: 50".data) (some 1000)
        = some (5, some 10, 100, 50) ∧
    (parse_log_in_stream false noDumpFail
        [mkStartLine 1000, "1010 #5 INITED cov: 100 ft: 50".data]).cov_over_time
      = [(some 10, 100)] ∧
    (parse_log_in_stream false (fun _ => true)
        [mkStartLine 1000, "1010 #5 INITED cov: 100 ft: 50".data]).cov_over_time
      = [] := by
  refine ⟨rfl, rfl, rfl⟩

theorem at_notMem_mkCovLine (r : Nat) : '@' ∉ mkCovLine r := by
  intro h
  rw [mkCovLine] at h
  rcases List.mem_cons.mp h with h | h
  · exact absurd h (by decide)
  · rcases List.mem_append.mp h with h | h
    · exact absurd ((natToDigits_spec r).2.2 _ h) (by decide)
    · exact absurd h (by decide)

theorem pyStrip_mkCovLine (r : Nat) : pyStrip (mkCovLine r) = mkCovLine r := by
  apply pyStrip_eq_self
  · intro c hc
    rw [show mkCovLine r = '#' :: (natToDigits r ++ " cov: 1 ft: 1".data) from rfl] at hc
    simp only [List.head?_cons, Option.some.injEq] at hc
    subst hc
    decide
  · intro c hc
    rw [show mkCovLine r = ('#' :: natToDigits r) ++ " cov: 1 ft: 1".data from rfl] at hc
    rw [List.getLast?_append_of_ne_nil _ (by decide)] at hc
    rw [show (" cov: 1 ft: 1".data).getLast? = some '1' from rfl] at hc
    simp only [Option.some.injEq] at hc
    subst hc
    decide

theorem parse_cov_mkCovLine (r : Nat) (t0 : Option Nat) :
    _parse_cov_line (mkCovLine r) t0 = some (r, none, 1, 1) := by
  rw [_parse_cov_line]
  rw [show matchNewCov (mkCovLine r) = none from rfl]
  dsimp only
  have hold : matchOldCov (mkCovLine r) = some (r, 1, 1) := by
    rw [matchOldCov]
    rw [show mkCovLine r = '#' :: (natToDigits r ++ " cov: 1 ft: 1".data) from rfl]
    rw [show dropLit "#".data ('#' :: (natToDigits r ++ " cov: 1 ft: 1".data))
        = some (natToDigits r ++ " cov: 1 ft: 1".data) from by simp [dropLit]]
    simp only [Option.bind_eq_bind, Option.some_bind]
    rw [takeDigits_natToDigits r _ (by simp [headNotDigit])]
    simp only [Option.some_bind]
    rw [show findLastSuffix covTail (" cov: 1 ft: 1".data) = some (1, 1) from rfl]
    rfl
  rw [hold]

theorem processLine_mkCovLine (sm : Bool) (st : FuzzState) (r : Nat) :
    processLine sm st (mkCovLine r) = .ok { st with
      last_cov := 1, max_cov := max st.max_cov 1,
      last_ft := 1, max_ft := max st.max_ft 1,
      cov_over_time := st.cov_over_time ++ [(none, 1)],
      ft_over_time := st.ft_over_time ++ [(none, 1)],
      ttl_round := st.ttl_roundno_base + r } := by
  have h1 : step1 st (mkCovLine r) = st := step1_of_none rfl
  have h2 : step2 st (mkCovLine r) = { st with
      last_cov := 1, max_cov := max st.max_cov 1,
      last_ft := 1, max_ft := max st.max_ft 1,
      cov_over_time := st.cov_over_time ++ [(none, 1)],
      ft_over_time := st.ft_over_time ++ [(none, 1)],
      ttl_round := st.ttl_roundno_base + r } := by
    unfold step2
    rw [parse_cov_mkCovLine]
  have h3 : ∀ s : FuzzState, step3 sm s (mkCovLine r) = .ok s :=
    fun s => step3_of_none rfl
  have h4 : ∀ s : FuzzState, step4 s (mkCovLine r) = s :=
    fun s => step4_of_none rfl
  have h5 : ∀ s : FuzzState, step5 s (mkCovLine r) = s := by
    intro s
    apply step5_of_none
    rw [show JAZZER_EXIT_LOG = '@' :: "@@@@ exit code of Jazzer".data from rfl]
    exact strContains_false_of_head_notMem (at_notMem_mkCovLine r)
  unfold processLine
  rw [h1, h2, h3]
  dsimp only
  rw [h4, h5]

theorem processLine_exitLine (sm : Bool) (st : FuzzState) :
    processLine sm st exitLine = .ok { st with ttl_roundno_base := st.ttl_round } := by
  have h1 : step1 st exitLine = st := step1_of_none rfl
  have h2 : step2 st exitLine = st := step2_of_none rfl
  have h3 : step3 sm st exitLine = .ok st := step3_of_none rfl
  unfold processLine
  rw [h1, h2, h3]
  dsimp only
  have h4 : ∀ s : FuzzState, step4 s exitLine = s := fun s => step4_of_none rfl
  rw [h4]
  unfold step5
  rw [show strContains exitLine JAZZER_EXIT_LOG = true from rfl]
  simp

theorem c6_covSeg (sm : Bool) (df : Nat → Bool) (n : Nat) :
    ∀ (s : Nat) (st : FuzzState) (d : Nat) (rest : List (List Char)),
      st.need_dump = false →
      ∃ st2 : FuzzState,
        (runLoop sm df st d ((List.range' (s + 1) n).map mkCovLine ++ rest)).1.map
            SyncData.ttl_round
          = (List.range' (s + 1) n).map (fun i => st.ttl_roundno_base + i)
              ++ (runLoop sm df st2 d rest).1.map SyncData.ttl_round ∧
        (runLoop sm df st d ((List.range' (s + 1) n).map mkCovLine ++ rest)).2
          = (runLoop sm df st2 d rest).2 ∧
        st2.need_dump = false ∧
        st2.ttl_roundno_base = st.ttl_roundno_base ∧
        st2.ttl_round = (if n = 0 then st.ttl_round else st.ttl_roundno_base + (s + n)) := by
  induction n with
  | zero =>
    intro s st d rest hnd
    exact ⟨st, by simp [List.range'], by simp [List.range'], hnd, rfl, by simp⟩
  | succ m ih =>
    intro s st d rest hnd
    rw [show List.range' (s + 1) (m + 1) = (s + 1) :: List.range' (s + 2) m from rfl]
    rw [List.map_cons, List.map_cons, List.cons_append, runLoop, pyStrip_mkCovLine,
      processLine_mkCovLine]
    dsimp only
    rw [if_neg (by simp [hnd])]
    obtain ⟨st2, hA, hB, h2nd, h2base, h2ttl⟩ :=
      ih (s + 1) { st with
        last_cov := 1, max_cov := max st.max_cov 1,
        last_ft := 1, max_ft := max st.max_ft 1,
        cov_over_time := st.cov_over_time ++ [(none, 1)],
        ft_over_time := st.ft_over_time ++ [(none, 1)],
        ttl_round := st.ttl_roundno_base + (s + 1) } d rest hnd
    refine ⟨st2, ?_, ?_, h2nd, h2base, ?_⟩
    · dsimp only
      rw [List.map_cons, hA]
      rfl
    · dsimp only
      exact hB
    · rw [h2ttl]
      by_cases hm : m = 0
      · subst hm
        simp
      · rw [if_neg hm, if_neg (by omega)]
        dsimp only
        omega

theorem chain'_le_range' (s n : Nat) : List.Chain' (· ≤ ·) (List.range' s n) := by
  induction n generalizing s with
  | zero => simp [List.range']
  | succ m ih =>
    rw [show List.range' s (m + 1) = s :: List.range' (s + 1) m from rfl]
    rw [List.chain'_cons']
    refine ⟨?_, ih (s + 1)⟩
    intro y hy
    cases m with
    | zero => simp [List.range'] at hy
    | succ k =>
      rw [show List.range' (s + 1) (k + 1) = (s + 1) :: List.range' (s + 2) k from rfl] at hy
      simp only [List.head?_cons, Option.mem_def, Option.some.injEq] at hy
      omega

theorem map_add_range' (a s n : Nat) :
    (List.range' s n).map (fun i => a + i) = List.range' (a + s) n := by
  induction n generalizing s with
  | zero => rfl
  | succ m ih =>
    rw [show List.range' s (m + 1) = s :: List.range' (s + 1) m from rfl,
      show List.range' (a + s) (m + 1) = (a + s) :: List.range' (a + s + 1) m from rfl,
      List.map_cons, ih (s + 1)]
    rw [show a + (s + 1) = a + s + 1 from by omega]

theorem c6_trace (sm : Bool) (df : Nat → Bool) (N1 N2 : Nat) :
    ttlRoundTrace sm df (c6Stream N1 N2)
      = List.range' 1 N1 ++ List.range' N1 (N2 + 1) := by
  rw [ttlRoundTrace, c6Stream]
  obtain ⟨st2, hA, hB, h2nd, h2base, h2ttl⟩ :=
    c6_covSeg sm df N1 0 initState 0 (exitLine :: (List.range' 1 N2).map mkCovLine) rfl
  simp only [Nat.zero_add] at hA
  rw [hA]
  have hst2ttl : st2.ttl_round = N1 := by
    rw [h2ttl]
    have h0 : initState.ttl_round = 0 := rfl
    have hb : initState.ttl_roundno_base = 0 := rfl
    rw [h0, hb]
    split <;> rename_i hn <;> omega
  have hcont : (runLoop sm df st2 0 (exitLine :: (List.range' 1 N2).map mkCovLine)).1.map
      SyncData.ttl_round = N1 :: List.range' (N1 + 1) N2 := by
    rw [runLoop, show pyStrip exitLine = exitLine from rfl, processLine_exitLine]
    dsimp only
    rw [if_neg (by simp [h2nd])]
    obtain ⟨st3, hA2, _, _, _, _⟩ :=
      c6_covSeg sm df N2 0 { st2 with ttl_roundno_base := st2.ttl_round } 0 [] h2nd
    dsimp only
    rw [List.map_cons]
    rw [show ((List.range' 1 N2).map mkCovLine)
        = (List.range' (0 + 1) N2).map mkCovLine ++ ([] : List (List Char)) from by simp]
    rw [hA2]
    rw [show (runLoop sm df st3 0 []).1 = [] from rfl]
    simp [toSync, hst2ttl, map_add_range']
  rw [hcont]
  have hbase : initState.ttl_roundno_base = 0 := rfl
  rw [hbase]
  simp only [Nat.zero_add]
  rw [show List.map (fun i => i) (List.range' 1 N1) = List.range' 1 N1 from
    List.map_id' _]
  rfl

/-- C6: for a stream of two consecutive engine runs with local rounds `1..N1`
and `1..N2` separated by a process-exit marker, the per-line `ttl_round`
history is non-decreasing over the whole stream (in particular across the run
boundary) and ends at `N1 + N2`; and after the first run plus the exit marker
the round base `ttl_roundno_base` has been advanced to the first run's final
global round count `N1`. -/
theorem C6_monotonic_rounds (sm : Bool) (df : Nat → Bool) (N1 N2 : Nat) :
    List.Chain' (· ≤ ·) (ttlRoundTrace sm df (c6Stream N1 N2)) ∧
    (ttlRoundTrace sm df (c6Stream N1 N2)).getLast? = some (N1 + N2) ∧
    (runLoop sm df initState 0
        ((List.range' 1 N1).map mkCovLine ++ [exitLine])).2.1.ttl_roundno_base = N1 := by
  refine ⟨?_, ?_, ?_⟩
  · rw [c6_trace]
    apply List.Chain'.append (chain'_le_range' 1 N1) (chain'_le_range' N1 (N2 + 1))
    intro x hx y hy
    rw [show List.range' N1 (N2 + 1) = N1 :: List.range' (N1 + 1) N2 from rfl] at hy
    simp only [List.head?_cons, Option.mem_def, Option.some.injEq] at hy
    subst hy
    cases N1 with
    | zero => simp [List.range'] at hx
    | succ m =>
      rw [List.range'_1_concat] at hx
      rw [List.getLast?_concat] at hx
      simp only [Option.mem_def, Option.some.injEq] at hx
      omega
  · rw [c6_trace]
    rw [List.getLast?_append_of_ne_nil _ (by simp [List.range'])]
    rw [List.range'_1_concat, List.getLast?_concat]
  · obtain ⟨st2, hA, hB, h2nd, h2base, h2ttl⟩ :=
      c6_covSeg sm df N1 0 initState 0 [exitLine] rfl
    simp only [Nat.zero_add] at hB
    rw [hB]
    rw [runLoop, show pyStrip exitLine = exitLine from rfl, processLine_exitLine]
    dsimp only
    rw [if_neg (by simp [h2nd])]
    rw [show (runLoop sm df { st2 with ttl_roundno_base := st2.ttl_round } 0 []).2
        = ({ st2 with ttl_roundno_base := st2.ttl_round }, 0) from rfl]
    dsimp only
    rw [h2ttl]
    have h0 : initState.ttl_round = 0 := rfl
    have hb1 : initState.ttl_roundno_base = 0 := rfl
    rw [h0, hb1]
    split <;> rename_i hn <;> omega

theorem isPrefixOf_self_append (p t : List Char) : p.isPrefixOf (p ++ t) = true := by
  induction p with
  | nil => simp [List.isPrefixOf]
  | cons x xs ih => simp [List.isPrefixOf, ih]

theorem natToDigits_head (n : Nat) :
    ∃ c rest, natToDigits n = c :: rest ∧ c.isDigit = true := by
  obtain ⟨_, hne, hall⟩ := natToDigits_spec n
  cases hd : natToDigits n with
  | nil => exact absurd hd hne
  | cons c rest => exact ⟨c, rest, rfl, hall c (by rw [hd]; simp)⟩

theorem at_notMem_natToDigits (n : Nat) : '@' ∉ natToDigits n := fun h =>
  absurd ((natToDigits_spec n).2.2 _ h) (by decide)

theorem strContains_cons_key {k c : Char} {M hay : List Char}
    (hne : (k == c) = false) :
    strContains (c :: hay) (k :: M) = strContains hay (k :: M) := by
  rw [strContains, strContains]
  rw [show (c :: hay).tails = (c :: hay) :: hay.tails from by simp]
  rw [List.any_cons]
  rw [show (k :: M).isPrefixOf (c :: hay) = false from by simp [List.isPrefixOf, hne]]
  rfl

theorem strContains_append_key {k : Char} {M xs hay : List Char} (hk : k ∉ xs) :
    strContains (xs ++ hay) (k :: M) = strContains hay (k :: M) := by
  induction xs with
  | nil => rfl
  | cons x xt ih =>
    rw [List.cons_append,
      strContains_cons_key (by simp only [beq_eq_false_iff_ne]; exact fun h => hk (h ▸ List.mem_cons_self x xt)),
      ih (fun h => hk (List.mem_cons_of_mem _ h))]

theorem strContains_append_right {xs hay M : List Char}
    (h : strContains hay M = true) : strContains (xs ++ hay) M = true := by
  rw [strContains, List.any_eq_true] at h ⊢
  obtain ⟨t, ht, hp⟩ := h
  exact ⟨t, (List.mem_tails _ _).mpr (((List.mem_tails _ _).mp ht).trans
    (List.suffix_append xs hay)), hp⟩

theorem takeDigits_full {F : List Char} (hne : F ≠ [])
    (hd : ∀ c ∈ F, c.isDigit = true) :
    takeDigits F = some (digitsVal F, []) := by
  have := takeDigits_append F hne hd [] trivial
  simpa using this

theorem rstrip_getLast {s : List Char} (hwf : pyRStrip s = s) {c : Char}
    (hc : s.getLast? = some c) : isPySpace c = false := by
  by_contra hcon
  simp only [Bool.not_eq_false] at hcon
  cases hrev : s.reverse with
  | nil =>
    rw [show s = [] from by simpa using congrArg List.reverse hrev] at hc
    simp at hc
  | cons d t =>
    have hdc : d = c := by
      have := List.head?_reverse s
      rw [hrev] at this
      simp only [List.head?_cons] at this
      rw [hc] at this
      exact Option.some.injEq .. ▸ this
    rw [pyRStrip, hrev, hdc, List.dropWhile_cons, hcon] at hwf
    simp only [if_true] at hwf
    have hlen := congrArg List.length hwf
    have hlen2 : s.length = t.length + 1 := by
      have := congrArg List.length hrev
      simpa using this
    have hdrop : (List.dropWhile isPySpace t).length ≤ t.length :=
      (List.dropWhile_suffix _).length_le
    simp only [List.length_reverse] at hlen
    omega

theorem isPrefixOf_false_head {p : Char} {ps : List Char} {c : Char} {cs : List Char}
    (hne : (p == c) = false) : (p :: ps).isPrefixOf (c :: cs) = false := by
  simp [List.isPrefixOf, hne]

theorem covTail_at (C F : List Char) (hCne : C ≠ []) (hCd : ∀ c ∈ C, c.isDigit = true)
    (hFne : F ≠ []) (hFd : ∀ c ∈ F, c.isDigit = true) :
    covTail ("cov: ".data ++ (C ++ (" ft: ".data ++ F)))
      = some (digitsVal C, digitsVal F) := by
  rw [covTail, dropLit_self]
  simp only [Option.bind_eq_bind, Option.some_bind]
  rw [takeDigits_append C hCne hCd _ (by simp [headNotDigit])]
  simp only [Option.some_bind]
  rw [dropLit_self]
  simp only [Option.some_bind]
  rw [takeDigits_full hFne hFd]
  rfl

theorem covTail_inner_none (C F : List Char) (hCd : ∀ c ∈ C, c.isDigit = true)
    (hFd : ∀ c ∈ F, c.isDigit = true) :
    findLastSuffix covTail ("ov: ".data ++ (C ++ (" ft: ".data ++ F))) = none := by
  apply findLastSuffix_none_key 'c' rfl
  · intro c u hne
    have h2 : ('c' == c) = false := by
      simp only [beq_eq_false_iff_ne]
      exact fun he => hne he.symm
    simp [covTail, dropLit, h2]
  · intro hmem
    rcases List.mem_append.mp hmem with h | h
    · exact absurd h (by decide)
    · rcases List.mem_append.mp h with h | h
      · exact absurd (hCd _ h) (by decide)
      · rcases List.mem_append.mp h with h | h
        · exact absurd h (by decide)
        · exact absurd (hFd _ h) (by decide)

theorem findLastSuffix_covTail (C F : List Char) (hCne : C ≠ [])
    (hCd : ∀ c ∈ C, c.isDigit = true) (hFne : F ≠ [])
    (hFd : ∀ c ∈ F, c.isDigit = true) :
    findLastSuffix covTail (" cov: ".data ++ (C ++ (" ft: ".data ++ F)))
      = some (digitsVal C, digitsVal F) := by
  have hkey : findLastSuffix covTail ('c' :: ("ov: ".data ++ (C ++ (" ft: ".data ++ F))))
      = some (digitsVal C, digitsVal F) := by
    rw [findLastSuffix_cons_of_none (covTail_inner_none C F hCd hFd) 'c']
    exact covTail_at C F hCne hCd hFne hFd
  exact findLastSuffix_append_some hkey [' ']

theorem parse_cov_legacy (r c f : Nat) (t0 : Option Nat) :
    _parse_cov_line (renderLegacy (.cov r c f)) t0 = some (r, none, c, f) := by
  rw [_parse_cov_line]
  rw [show matchNewCov (renderLegacy (.cov r c f)) = none from rfl]
  dsimp only
  have hold : matchOldCov (renderLegacy (.cov r c f)) = some (r, c, f) := by
    rw [matchOldCov]
    simp only [renderLegacy]
    have hdrop : ∀ X : List Char, dropLit "#".data ('#' :: X) = some X :=
      fun X => by simp [dropLit]
    rw [hdrop]
    simp only [Option.bind_eq_bind, Option.some_bind]
    rw [takeDigits_natToDigits r _ (by simp [headNotDigit])]
    simp only [Option.some_bind]
    rw [findLastSuffix_covTail _ _ (natToDigits_spec c).2.1 (natToDigits_spec c).2.2
      (natToDigits_spec f).2.1 (natToDigits_spec f).2.2]
    rw [(natToDigits_spec c).1, (natToDigits_spec f).1]
    rfl
  rw [hold]

theorem parse_cov_cur (ts r c f : Nat) (t0 : Option Nat) :
    _parse_cov_line (renderCur ts (.cov r c f)) t0
      = some (r, elapsedOf ts t0, c, f) := by
  rw [_parse_cov_line]
  have hnew : matchNewCov (renderCur ts (.cov r c f)) = some (ts, r, c, f) := by
    rw [matchNewCov, renderCur]
    rw [takeDigits_natToDigits ts _ (by simp [headNotDigit])]
    simp only [Option.bind_eq_bind, Option.some_bind]
    rw [if_pos (by decide)]
    simp only [renderLegacy]
    have hdrop : ∀ X : List Char, dropLit "#".data ('#' :: X) = some X :=
      fun X => by simp [dropLit]
    rw [hdrop]
    simp only [Option.some_bind]
    rw [takeDigits_natToDigits r _ (by simp [headNotDigit])]
    simp only [Option.some_bind]
    rw [findLastSuffix_covTail _ _ (natToDigits_spec c).2.1 (natToDigits_spec c).2.2
      (natToDigits_spec f).2.1 (natToDigits_spec f).2.2]
    rw [(natToDigits_spec c).1, (natToDigits_spec f).1]
    rfl
  rw [hnew]

theorem parse_crash_legacy (s : List Char) (t0 : Option Nat) :
    _parse_crash_line (renderLegacy (.crash s)) t0
      = some (none, CRASH_BANNER ++ s) := by
  rw [_parse_crash_line]
  rw [show takeDigits (renderLegacy (.crash s)) = none from rfl]
  dsimp only
  rw [show renderLegacy (.crash s) = CRASH_BANNER ++ s from rfl,
    isPrefixOf_self_append]
  simp

theorem parse_crash_cur (ts : Nat) (s : List Char) (t0 : Option Nat) :
    _parse_crash_line (renderCur ts (.crash s)) t0
      = some (elapsedOf ts t0, CRASH_BANNER ++ s) := by
  rw [_parse_crash_line, renderCur]
  rw [takeDigits_natToDigits ts _ (by simp [headNotDigit])]
  dsimp only
  rw [show renderLegacy (.crash s) = CRASH_BANNER ++ s from rfl]
  rw [show isPySpace ' ' = true from rfl, isPrefixOf_self_append]
  simp

theorem parse_artifact_legacy {b : List Char} (hb : b ≠ [])
    (hd : ∀ c ∈ b, c.isDigit = true) (t0 : Option Nat) :
    _parse_artifact_line (renderLegacy (.artifact b)) t0
      = some (none, "crash-".data ++ b) := by
  rw [_parse_artifact_line]
  rw [show takeDigits (renderLegacy (.artifact b)) = none from rfl]
  simp only [Option.bind_eq_bind, Option.none_bind]
  rw [show renderLegacy (.artifact b)
      = "artifact_prefix=".data
          ++ ("./; Test unit written to ./artifacts/crash-".data ++ b) from rfl]
  rw [dropLit_self]
  dsimp only
  rw [artifactBody_digits hb hd]

theorem parse_artifact_cur {b : List Char} (hb : b ≠ [])
    (hd : ∀ c ∈ b, c.isDigit = true) (ts : Nat) (t0 : Option Nat) :
    _parse_artifact_line (renderCur ts (.artifact b)) t0
      = some (elapsedOf ts t0, "crash-".data ++ b) := by
  rw [_parse_artifact_line, renderCur]
  rw [takeDigits_natToDigits ts _ (by simp [headNotDigit])]
  simp only [Option.bind_eq_bind, Option.some_bind]
  rw [if_pos (by decide)]
  rw [show renderLegacy (.artifact b)
      = "artifact_prefix=".data
          ++ ("./; Test unit written to ./artifacts/crash-".data ++ b) from rfl]
  rw [dropLit_self]
  simp only [Option.some_bind]
  rw [artifactBody_digits hb hd]
  rfl

theorem takeDigits_cons_notDigit {c : Char} {cs : List Char} (h : c.isDigit = false) :
    takeDigits (c :: cs) = none := by
  simp [takeDigits, h]

theorem dropLit_cons_ne {p c : Char} {ps cs : List Char} (h : (p == c) = false) :
    dropLit (p :: ps) (c :: cs) = none := by
  simp [dropLit, h]

theorem matchWild_cons_ne {p c : Char} {ps cs : List Char} (h1 : (p == '.') = false)
    (h2 : (p == c) = false) : matchWild (p :: ps) (c :: cs) = none := by
  simp [matchWild, h1, h2]

theorem dropLit_natToDigits {p : Char} {ps : List Char} (hp : p.isDigit = false)
    (n : Nat) (X : List Char) : dropLit (p :: ps) (natToDigits n ++ X) = none := by
  obtain ⟨c, rest, hcr, hdig⟩ := natToDigits_head n
  rw [hcr, List.cons_append]
  exact dropLit_cons_ne (beq_digit_false hdig hp)

theorem matchWild_banner_ne {c : Char} {cs : List Char} (h : (('O' : Char) == c) = false) :
    matchWild FUZZ_START_BANNER (c :: cs) = none := by
  rw [show FUZZ_START_BANNER = 'O' :: FUZZ_START_BANNER.tail from rfl]
  exact matchWild_cons_ne (by decide) h

theorem matchFuzzStart_ts_ne {n : Nat} {c : Char} {cs : List Char}
    (h : (('O' : Char) == c) = false) :
    matchFuzzStart (natToDigits n ++ ' ' :: c :: cs) = none := by
  rw [matchFuzzStart, takeDigits_natToDigits n _ (by simp [headNotDigit])]
  simp only [Option.bind_eq_bind, Option.some_bind]
  rw [if_pos (by decide)]
  rw [matchWild_banner_ne h]
  rfl

theorem crash_banner_notPrefix {c : Char} {cs : List Char} (hne : (('=' : Char) == c) = false) :
    CRASH_BANNER.isPrefixOf (c :: cs) = false := by
  rw [show CRASH_BANNER = '=' :: "= Java Exception:".data from rfl]
  exact isPrefixOf_false_head hne

theorem artifact_prefix_dropLit_none {c : Char} {cs : List Char}
    (hne : (('a' : Char) == c) = false) :
    dropLit "artifact_prefix=".data (c :: cs) = none := by
  rw [show "artifact_prefix=".data = 'a' :: "rtifact_prefix=".data from rfl]
  exact dropLit_cons_ne hne

theorem parse_cov_none_head {c : Char} {cs : List Char} {t0 : Option Nat}
    (hd : c.isDigit = false) (hne : (('#' : Char) == c) = false) :
    _parse_cov_line (c :: cs) t0 = none := by
  have hnew : matchNewCov (c :: cs) = none := by
    rw [matchNewCov, takeDigits_cons_notDigit hd]
    rfl
  have hold : matchOldCov (c :: cs) = none := by
    rw [matchOldCov, show ("#".data) = ('#' :: ([] : List Char)) from rfl,
      dropLit_cons_ne hne]
    rfl
  rw [_parse_cov_line, hnew]
  dsimp only
  rw [hold]

theorem parse_cov_cur_none {n : Nat} {c : Char} {cs : List Char} {t0 : Option Nat}
    (hne : (('#' : Char) == c) = false) :
    _parse_cov_line (natToDigits n ++ ' ' :: c :: cs) t0 = none := by
  have hnew : matchNewCov (natToDigits n ++ ' ' :: c :: cs) = none := by
    rw [matchNewCov, takeDigits_natToDigits n _ (by simp [headNotDigit])]
    simp only [Option.bind_eq_bind, Option.some_bind]
    rw [if_pos (by decide)]
    simp [dropLit, hne]
  have hold : matchOldCov (natToDigits n ++ ' ' :: c :: cs) = none := by
    obtain ⟨c0, r0, hc0, hdig⟩ := natToDigits_head n
    have h2 : (('#' : Char) == c0) = false := beq_digit_false hdig (by decide)
    rw [matchOldCov, hc0, List.cons_append]
    simp [dropLit, h2]
  rw [_parse_cov_line, hnew]
  dsimp only
  rw [hold]

theorem parse_crash_none_head {c : Char} {cs : List Char} {t0 : Option Nat}
    (hd : c.isDigit = false) (hne : (('=' : Char) == c) = false) :
    _parse_crash_line (c :: cs) t0 = none := by
  rw [_parse_crash_line, takeDigits_cons_notDigit hd]
  dsimp only
  rw [crash_banner_notPrefix hne]
  rfl

theorem parse_crash_cur_none {n : Nat} {c : Char} {cs : List Char} {t0 : Option Nat}
    (hne : (('=' : Char) == c) = false) :
    _parse_crash_line (natToDigits n ++ ' ' :: c :: cs) t0 = none := by
  rw [_parse_crash_line, takeDigits_natToDigits n _ (by simp [headNotDigit])]
  dsimp only
  rw [crash_banner_notPrefix hne]
  simp only [Bool.and_false, Bool.false_eq_true, if_false]
  obtain ⟨c0, r0, hc0, hdig⟩ := natToDigits_head n
  rw [hc0, List.cons_append, crash_banner_notPrefix (beq_digit_false hdig (by decide))]
  rfl

theorem parse_artifact_none_head {c : Char} {cs : List Char} {t0 : Option Nat}
    (hd : c.isDigit = false) (hne : (('a' : Char) == c) = false) :
    _parse_artifact_line (c :: cs) t0 = none := by
  rw [_parse_artifact_line, takeDigits_cons_notDigit hd]
  dsimp only
  rw [artifact_prefix_dropLit_none hne]
  rfl

theorem parse_artifact_cur_none {n : Nat} {c : Char} {cs : List Char} {t0 : Option Nat}
    (hne : (('a' : Char) == c) = false) :
    _parse_artifact_line (natToDigits n ++ ' ' :: c :: cs) t0 = none := by
  rw [_parse_artifact_line, takeDigits_natToDigits n _ (by simp [headNotDigit])]
  simp only [Option.bind_eq_bind, Option.some_bind]
  rw [if_pos (by decide)]
  rw [artifact_prefix_dropLit_none hne]
  obtain ⟨c0, r0, hc0, hdig⟩ := natToDigits_head n
  have h2 : (('a' : Char) == c0) = false := beq_digit_false hdig (by decide)
  rw [hc0, List.cons_append]
  simp [dropLit, h2]

theorem getLast_notSpace_natToDigits {n : Nat} {c : Char}
    (hc : (natToDigits n).getLast? = some c) : isPySpace c = false := by
  obtain ⟨_, hne, hall⟩ := natToDigits_spec n
  have hmem : c ∈ natToDigits n := by
    obtain ⟨hh, hx⟩ := List.mem_getLast?_eq_getLast (l := natToDigits n) (x := c)
      (by simp [Option.mem_def, hc])
    rw [hx]
    exact List.getLast_mem hh
  exact isPySpace_of_digit (hall c hmem)

theorem pyStrip_ts_line {n : Nat} {L : List Char} (hne : L ≠ [])
    (hlast : ∀ c, L.getLast? = some c → isPySpace c = false) :
    pyStrip (natToDigits n ++ ' ' :: L) = natToDigits n ++ ' ' :: L := by
  apply pyStrip_eq_self
  · intro d hd
    obtain ⟨c0, r0, hc0, hdig⟩ := natToDigits_head n
    rw [hc0, List.cons_append, List.head?_cons, Option.some.injEq] at hd
    subst hd
    exact isPySpace_of_digit hdig
  · intro d hd
    rw [show natToDigits n ++ ' ' :: L = (natToDigits n ++ [' ']) ++ L from by simp] at hd
    rw [List.getLast?_append_of_ne_nil _ hne] at hd
    exact hlast d hd

theorem getLast_start {c : Char} (hc : START_TEXT.getLast? = some c) :
    isPySpace c = false := by
  rw [show START_TEXT.getLast? = some '.' from by decide, Option.some.injEq] at hc
  subst hc
  decide

theorem getLast_cov {r cv ft : Nat} {d : Char}
    (hd : (renderLegacy (.cov r cv ft)).getLast? = some d) : isPySpace d = false := by
  obtain ⟨_, hne, _⟩ := natToDigits_spec ft
  rw [show renderLegacy (.cov r cv ft)
      = ('#' :: (natToDigits r ++ (" cov: ".data ++ (natToDigits cv ++ " ft: ".data))))
          ++ natToDigits ft from by simp [renderLegacy]] at hd
  rw [List.getLast?_append_of_ne_nil _ hne] at hd
  exact getLast_notSpace_natToDigits hd

theorem getLast_crash {s : List Char} (hwf : pyRStrip s = s) {d : Char}
    (hd : (renderLegacy (.crash s)).getLast? = some d) : isPySpace d = false := by
  cases hs : s with
  | nil =>
    rw [show renderLegacy (.crash s) = CRASH_BANNER ++ s from rfl, hs,
      List.append_nil, show CRASH_BANNER.getLast? = some ':' from by decide,
      Option.some.injEq] at hd
    subst hd
    decide
  | cons x xs =>
    rw [show renderLegacy (.crash s) = CRASH_BANNER ++ s from rfl, hs,
      List.getLast?_append_of_ne_nil _ (List.cons_ne_nil x xs), ← hs] at hd
    exact rstrip_getLast hwf hd

theorem getLast_artifact {b : List Char} (hb : b ≠ [])
    (hdig : ∀ c ∈ b, c.isDigit = true) {d : Char}
    (hd : (renderLegacy (.artifact b)).getLast? = some d) : isPySpace d = false := by
  rw [show renderLegacy (.artifact b)
      = "artifact_prefix=./; Test unit written to ./artifacts/crash-".data ++ b
      from rfl, List.getLast?_append_of_ne_nil _ hb] at hd
  have hmem : d ∈ b := by
    obtain ⟨hh, hx⟩ := List.mem_getLast?_eq_getLast (l := b) (x := d)
      (by simp [Option.mem_def, hd])
    rw [hx]
    exact List.getLast_mem hh
  exact isPySpace_of_digit (hdig d hmem)

theorem getLast_exit {d : Char} (hd : exitLine.getLast? = some d) :
    isPySpace d = false := by
  rw [show exitLine.getLast? = some '0' from by decide, Option.some.injEq] at hd
  subst hd
  decide

theorem renderLegacy_ne_nil (ev : LogEv) : renderLegacy ev ≠ [] := by
  cases ev with
  | start => exact fun h => by simp [renderLegacy, START_TEXT] at h
  | cov r cv ft =>
    exact fun h => List.noConfusion (show ('#' : Char) :: _ = ([] : List Char) from h)
  | crash s =>
    exact fun h => List.noConfusion (show ('=' : Char) :: _ = ([] : List Char) from h)
  | artifact b =>
    exact fun h => List.noConfusion (show ('a' : Char) :: _ = ([] : List Char) from h)
  | exitMark =>
    exact fun h => List.noConfusion (show ('@' : Char) :: _ = ([] : List Char) from h)

theorem getLast_render {ev : LogEv} (hwf : wfEv ev) {d : Char}
    (hd : (renderLegacy ev).getLast? = some d) : isPySpace d = false := by
  cases ev with
  | start => exact getLast_start hd
  | cov r cv ft => exact getLast_cov hd
  | crash s => exact getLast_crash hwf hd
  | artifact b => exact getLast_artifact hwf.1 hwf.2 hd
  | exitMark => exact getLast_exit hd

theorem head_notSpace_render {ev : LogEv} {d : Char}
    (hd : (renderLegacy ev).head? = some d) : isPySpace d = false := by
  cases ev with
  | start =>
    rw [show (renderLegacy .start).head? = some 'O' from rfl, Option.some.injEq] at hd
    subst hd
    decide
  | cov r cv ft =>
    rw [show (renderLegacy (.cov r cv ft)).head? = some '#' from rfl,
      Option.some.injEq] at hd
    subst hd
    decide
  | crash s =>
    rw [show (renderLegacy (.crash s)).head? = some '=' from rfl,
      Option.some.injEq] at hd
    subst hd
    decide
  | artifact b =>
    rw [show (renderLegacy (.artifact b)).head? = some 'a' from rfl,
      Option.some.injEq] at hd
    subst hd
    decide
  | exitMark =>
    rw [show (renderLegacy .exitMark).head? = some '@' from rfl,
      Option.some.injEq] at hd
    subst hd
    decide

theorem pyStrip_render {ev : LogEv} (hwf : wfEv ev) :
    pyStrip (renderLegacy ev) = renderLegacy ev :=
  pyStrip_eq_self (fun _ hd => head_notSpace_render hd) (fun _ hd => getLast_render hwf hd)

theorem pyStrip_renderCur {ts : Nat} {ev : LogEv} (hwf : wfEv ev) :
    pyStrip (renderCur ts ev) = renderCur ts ev :=
  pyStrip_ts_line (renderLegacy_ne_nil ev) (fun _ hd => getLast_render hwf hd)

theorem strContains_cur_eq (ts : Nat) (L : List Char) :
    strContains (natToDigits ts ++ ' ' :: L) JAZZER_EXIT_LOG
      = strContains L JAZZER_EXIT_LOG := by
  rw [show natToDigits ts ++ ' ' :: L = (natToDigits ts ++ [' ']) ++ L from by simp]
  rw [show JAZZER_EXIT_LOG = '@' :: "@@@@ exit code of Jazzer".data from rfl]
  refine strContains_append_key ?_
  intro h
  rcases List.mem_append.mp h with h | h
  · exact at_notMem_natToDigits ts h
  · exact absurd h (by decide)

theorem at_notMem_cov (r cv ft : Nat) : '@' ∉ renderLegacy (.cov r cv ft) := by
  intro hmem
  simp only [renderLegacy, List.mem_cons, List.mem_append] at hmem
  rcases hmem with h | h | h | h | h | h
  · exact absurd h (by decide)
  · exact at_notMem_natToDigits r h
  · exact absurd h (by decide)
  · exact at_notMem_natToDigits cv h
  · exact absurd h (by decide)
  · exact at_notMem_natToDigits ft h

theorem at_notMem_artifact {b : List Char} (hdig : ∀ c ∈ b, c.isDigit = true) :
    '@' ∉ renderLegacy (.artifact b) := by
  intro hmem
  rw [show renderLegacy (.artifact b)
      = "artifact_prefix=./; Test unit written to ./artifacts/crash-".data ++ b
      from rfl] at hmem
  rcases List.mem_append.mp hmem with h | h
  · exact absurd h (by decide)
  · exact absurd (hdig _ h) (by decide)

theorem crash_2_sanitizer_banner_ok (sm : Bool) (s : List Char) :
    ∃ san?, crash_2_sanitizer sm (CRASH_BANNER ++ s) = .ok san? := by
  rw [crash_2_sanitizer]
  by_cases hsin : is_of_jazzer_sink sm (CRASH_BANNER ++ s) = true
  · rw [if_pos hsin]
    exact ⟨some SINKPOINT, rfl⟩
  · rw [if_neg hsin]
    obtain ⟨b, hb⟩ := is_interesting_ok_of_colon
      (show (':' : Char) ∈ CRASH_BANNER ++ s from List.mem_append.mpr (Or.inl (by decide)))
    rw [hb]
    cases b with
    | false => exact ⟨none, rfl⟩
    | true => exact ⟨some (findSanitizer SANITIZERS (CRASH_BANNER ++ s)), rfl⟩

theorem step3_eq_crashQueued {sinkMode : Bool} {st : FuzzState} {line : List Char}
    {e : Option Int} {crash : List Char} {san? : Option (List Char)}
    (hcl : _parse_crash_line line st.initial_timestamp = some (e, crash))
    (hsan : crash_2_sanitizer sinkMode crash = .ok san?) :
    step3 sinkMode st line = .ok (crashQueued st e crash san?) := by
  unfold step3
  rw [hcl]
  dsimp only
  simp only [hsan]
  cases san? with
  | none => rfl
  | some san => rfl

theorem matchFuzzStart_mkStartLine (ts : Nat) : matchFuzzStart (mkStartLine ts) = some ts := by
  rw [matchFuzzStart, takeDigits_mkStartLine ts]
  simp only [Option.bind_eq_bind, Option.some_bind]
  rw [if_pos (by decide)]
  rw [show matchWild FUZZ_START_BANNER START_TEXT = some [] from rfl]
  rfl

theorem parse_cov_mkStartLine (ts : Nat) (t0 : Option Nat) :
    _parse_cov_line (mkStartLine ts) t0 = none := by
  rw [show mkStartLine ts = natToDigits ts ++ ' ' :: 'O' :: START_TEXT.tail from rfl]
  exact parse_cov_cur_none (by decide)

theorem parse_crash_mkStartLine (ts : Nat) (t0 : Option Nat) :
    _parse_crash_line (mkStartLine ts) t0 = none := by
  rw [show mkStartLine ts = natToDigits ts ++ ' ' :: 'O' :: START_TEXT.tail from rfl]
  exact parse_crash_cur_none (by decide)

theorem parse_artifact_mkStartLine (ts : Nat) (t0 : Option Nat) :
    _parse_artifact_line (mkStartLine ts) t0 = none := by
  rw [show mkStartLine ts = natToDigits ts ++ ' ' :: 'O' :: START_TEXT.tail from rfl]
  exact parse_artifact_cur_none (by decide)

theorem exit_notContains_mkStartLine (ts : Nat) :
    strContains (mkStartLine ts) JAZZER_EXIT_LOG = false := by
  rw [show JAZZER_EXIT_LOG = '@' :: "@@@@ exit code of Jazzer".data from rfl]
  exact strContains_false_of_head_notMem (at_notMem_mkStartLine ts)

theorem pl_start_legacy (sm : Bool) (st : FuzzState) :
    processLine sm st (renderLegacy .start) = .ok st := by
  have h1 : step1 st (renderLegacy .start) = st := step1_of_none rfl
  have h2 : step2 st (renderLegacy .start) = st := step2_of_none rfl
  have h3 : step3 sm st (renderLegacy .start) = .ok st := step3_of_none rfl
  have h4 : ∀ x : FuzzState, step4 x (renderLegacy .start) = x := fun x =>
    step4_of_none rfl
  have h5 : ∀ x : FuzzState, step5 x (renderLegacy .start) = x := fun x =>
    step5_of_none rfl
  unfold processLine
  rw [h1, h2, h3]
  dsimp only
  rw [h4, h5]

theorem pl_start_cur_first (sm : Bool) (st : FuzzState) (ts : Nat)
    (h0 : st.initial_timestamp = none) :
    processLine sm st (renderCur ts .start)
      = .ok { st with initial_timestamp := some ts, need_dump := true } := by
  rw [show renderCur ts .start = mkStartLine ts from rfl]
  have h1 : step1 st (mkStartLine ts)
      = { st with initial_timestamp := some ts, need_dump := true } := by
    unfold step1
    rw [h0, matchFuzzStart_mkStartLine]
    rfl
  unfold processLine
  rw [h1, step2_of_none (parse_cov_mkStartLine ts _),
    step3_of_none (parse_crash_mkStartLine ts _)]
  dsimp only
  rw [step4_of_none (parse_artifact_mkStartLine ts _),
    step5_of_none (exit_notContains_mkStartLine ts)]

theorem pl_start_cur_rest (sm : Bool) (st : FuzzState) (t ts : Nat)
    (h0 : st.initial_timestamp = some t) :
    processLine sm st (renderCur ts .start) = .ok st := by
  rw [show renderCur ts .start = mkStartLine ts from rfl]
  unfold processLine
  rw [step1_of_set h0, step2_of_none (parse_cov_mkStartLine ts _),
    step3_of_none (parse_crash_mkStartLine ts _)]
  dsimp only
  rw [step4_of_none (parse_artifact_mkStartLine ts _),
    step5_of_none (exit_notContains_mkStartLine ts)]

theorem pl_cov_legacy (sm : Bool) (st : FuzzState) (r cv ft : Nat) :
    processLine sm st (renderLegacy (.cov r cv ft))
      = .ok { st with
          last_cov := cv, max_cov := max st.max_cov cv,
          last_ft := ft, max_ft := max st.max_ft ft,
          cov_over_time := st.cov_over_time ++ [(none, cv)],
          ft_over_time := st.ft_over_time ++ [(none, ft)],
          ttl_round := st.ttl_roundno_base + r } := by
  have hsplit : renderLegacy (.cov r cv ft)
      = '#' :: (natToDigits r ++ (" cov: ".data
          ++ (natToDigits cv ++ (" ft: ".data ++ natToDigits ft)))) := rfl
  have h1 : step1 st (renderLegacy (.cov r cv ft)) = st := step1_of_none rfl
  have h2 : step2 st (renderLegacy (.cov r cv ft)) = { st with
      last_cov := cv, max_cov := max st.max_cov cv,
      last_ft := ft, max_ft := max st.max_ft ft,
      cov_over_time := st.cov_over_time ++ [(none, cv)],
      ft_over_time := st.ft_over_time ++ [(none, ft)],
      ttl_round := st.ttl_roundno_base + r } := by
    unfold step2
    rw [parse_cov_legacy]
  have h3 : ∀ x : FuzzState, step3 sm x (renderLegacy (.cov r cv ft)) = .ok x := fun x =>
    step3_of_none (by
      rw [hsplit]
      exact parse_crash_none_head (by decide) (by decide))
  have h4 : ∀ x : FuzzState, step4 x (renderLegacy (.cov r cv ft)) = x := fun x =>
    step4_of_none (by
      rw [hsplit]
      exact parse_artifact_none_head (by decide) (by decide))
  have h5 : ∀ x : FuzzState, step5 x (renderLegacy (.cov r cv ft)) = x := fun x =>
    step5_of_none (by
      rw [show JAZZER_EXIT_LOG = '@' :: "@@@@ exit code of Jazzer".data from rfl]
      exact strContains_false_of_head_notMem (at_notMem_cov r cv ft))
  unfold processLine
  rw [h1, h2, h3]
  dsimp only
  rw [h4, h5]

theorem pl_cov_cur (sm : Bool) (st : FuzzState) (ts r cv ft : Nat) :
    processLine sm st (renderCur ts (.cov r cv ft))
      = .ok { st with
          last_cov := cv, max_cov := max st.max_cov cv,
          last_ft := ft, max_ft := max st.max_ft ft,
          cov_over_time :=
            st.cov_over_time ++ [(elapsedOf ts st.initial_timestamp, cv)],
          ft_over_time :=
            st.ft_over_time ++ [(elapsedOf ts st.initial_timestamp, ft)],
          ttl_round := st.ttl_roundno_base + r } := by
  have hsplit : renderCur ts (.cov r cv ft)
      = natToDigits ts ++ ' ' :: '#' :: (natToDigits r ++ (" cov: ".data
          ++ (natToDigits cv ++ (" ft: ".data ++ natToDigits ft)))) := rfl
  have h1 : step1 st (renderCur ts (.cov r cv ft)) = st := step1_of_none (by
    rw [hsplit]
    exact matchFuzzStart_ts_ne (by decide))
  have h2 : step2 st (renderCur ts (.cov r cv ft)) = { st with
      last_cov := cv, max_cov := max st.max_cov cv,
      last_ft := ft, max_ft := max st.max_ft ft,
      cov_over_time :=
        st.cov_over_time ++ [(elapsedOf ts st.initial_timestamp, cv)],
      ft_over_time :=
        st.ft_over_time ++ [(elapsedOf ts st.initial_timestamp, ft)],
      ttl_round := st.ttl_roundno_base + r } := by
    unfold step2
    rw [parse_cov_cur]
  have h3 : ∀ x : FuzzState, step3 sm x (renderCur ts (.cov r cv ft)) = .ok x := fun x =>
    step3_of_none (by
      rw [hsplit]
      exact parse_crash_cur_none (by decide))
  have h4 : ∀ x : FuzzState, step4 x (renderCur ts (.cov r cv ft)) = x := fun x =>
    step4_of_none (by
      rw [hsplit]
      exact parse_artifact_cur_none (by decide))
  have h5 : ∀ x : FuzzState, step5 x (renderCur ts (.cov r cv ft)) = x := fun x =>
    step5_of_none (by
      rw [hsplit, strContains_cur_eq]
      rw [show JAZZER_EXIT_LOG = '@' :: "@@@@ exit code of Jazzer".data from rfl]
      exact strContains_false_of_head_notMem (at_notMem_cov r cv ft))
  unfold processLine
  rw [h1, h2, h3]
  dsimp only
  rw [h4, h5]

theorem pl_crash_legacy (sm : Bool) (st : FuzzState) (s : List Char)
    {san? : Option (List Char)}
    (hsan : crash_2_sanitizer sm (CRASH_BANNER ++ s) = .ok san?) :
    processLine sm st (renderLegacy (.crash s))
      = .ok (step5 (crashQueued st none (CRASH_BANNER ++ s) san?)
          (renderLegacy (.crash s))) := by
  have hsplit : renderLegacy (.crash s) = '=' :: ("= Java Exception:".data ++ s) := rfl
  have h1 : step1 st (renderLegacy (.crash s)) = st := step1_of_none rfl
  have h2 : step2 st (renderLegacy (.crash s)) = st := step2_of_none (by
    rw [hsplit]
    exact parse_cov_none_head (by decide) (by decide))
  have h3 : step3 sm st (renderLegacy (.crash s))
      = .ok (crashQueued st none (CRASH_BANNER ++ s) san?) :=
    step3_eq_crashQueued (parse_crash_legacy s st.initial_timestamp) hsan
  have h4 : ∀ x : FuzzState, step4 x (renderLegacy (.crash s)) = x := fun x =>
    step4_of_none (by
      rw [hsplit]
      exact parse_artifact_none_head (by decide) (by decide))
  unfold processLine
  rw [h1, h2, h3]
  dsimp only
  rw [h4]

theorem pl_crash_cur (sm : Bool) (st : FuzzState) (ts : Nat) (s : List Char)
    {san? : Option (List Char)}
    (hsan : crash_2_sanitizer sm (CRASH_BANNER ++ s) = .ok san?) :
    processLine sm st (renderCur ts (.crash s))
      = .ok (step5 (crashQueued st (elapsedOf ts st.initial_timestamp)
            (CRASH_BANNER ++ s) san?)
          (renderCur ts (.crash s))) := by
  have hsplit : renderCur ts (.crash s)
      = natToDigits ts ++ ' ' :: '=' :: ("= Java Exception:".data ++ s) := rfl
  have h1 : step1 st (renderCur ts (.crash s)) = st := step1_of_none (by
    rw [hsplit]
    exact matchFuzzStart_ts_ne (by decide))
  have h2 : step2 st (renderCur ts (.crash s)) = st := step2_of_none (by
    rw [hsplit]
    exact parse_cov_cur_none (by decide))
  have h3 : step3 sm st (renderCur ts (.crash s))
      = .ok (crashQueued st (elapsedOf ts st.initial_timestamp)
          (CRASH_BANNER ++ s) san?) :=
    step3_eq_crashQueued (parse_crash_cur ts s st.initial_timestamp) hsan
  have h4 : ∀ x : FuzzState, step4 x (renderCur ts (.crash s)) = x := fun x =>
    step4_of_none (by
      rw [hsplit]
      exact parse_artifact_cur_none (by decide))
  unfold processLine
  rw [h1, h2, h3]
  dsimp only
  rw [h4]

theorem pl_artifact_legacy (sm : Bool) (st : FuzzState) {b : List Char}
    (hb : b ≠ []) (hdig : ∀ c ∈ b, c.isDigit = true) :
    processLine sm st (renderLegacy (.artifact b))
      = .ok { st with
          artifact_over_time := st.artifact_over_time ++ [(none, "crash-".data ++ b)],
          pending_crashes :=
            (triageScan none ("crash-".data ++ b)
              st.pending_crashes st.seen_sanitizers).1,
          log_triage_crash_over_time :=
            st.log_triage_crash_over_time
              ++ (triageScan none ("crash-".data ++ b)
                    st.pending_crashes st.seen_sanitizers).2.1,
          seen_sanitizers :=
            (triageScan none ("crash-".data ++ b)
              st.pending_crashes st.seen_sanitizers).2.2.1,
          need_dump :=
            st.need_dump || (triageScan none ("crash-".data ++ b)
              st.pending_crashes st.seen_sanitizers).2.2.2 } := by
  have hsplit : renderLegacy (.artifact b)
      = 'a' :: ("rtifact_prefix=./; Test unit written to ./artifacts/crash-".data
          ++ b) := rfl
  have h1 : step1 st (renderLegacy (.artifact b)) = st := step1_of_none rfl
  have h2 : step2 st (renderLegacy (.artifact b)) = st := step2_of_none (by
    rw [hsplit]
    exact parse_cov_none_head (by decide) (by decide))
  have h3 : step3 sm st (renderLegacy (.artifact b)) = .ok st := step3_of_none (by
    rw [hsplit]
    exact parse_crash_none_head (by decide) (by decide))
  unfold processLine
  rw [h1, h2, h3]
  dsimp only
  have h5 : strContains (renderLegacy (.artifact b)) JAZZER_EXIT_LOG = false := by
    rw [show JAZZER_EXIT_LOG = '@' :: "@@@@ exit code of Jazzer".data from rfl]
    exact strContains_false_of_head_notMem (at_notMem_artifact hdig)
  rw [step5_of_none h5]
  unfold step4
  rw [parse_artifact_legacy hb hdig]

theorem pl_artifact_cur (sm : Bool) (st : FuzzState) (ts : Nat) {b : List Char}
    (hb : b ≠ []) (hdig : ∀ c ∈ b, c.isDigit = true) :
    processLine sm st (renderCur ts (.artifact b))
      = .ok { st with
          artifact_over_time := st.artifact_over_time
            ++ [(elapsedOf ts st.initial_timestamp, "crash-".data ++ b)],
          pending_crashes :=
            (triageScan (elapsedOf ts st.initial_timestamp) ("crash-".data ++ b)
              st.pending_crashes st.seen_sanitizers).1,
          log_triage_crash_over_time :=
            st.log_triage_crash_over_time
              ++ (triageScan (elapsedOf ts st.initial_timestamp) ("crash-".data ++ b)
                    st.pending_crashes st.seen_sanitizers).2.1,
          seen_sanitizers :=
            (triageScan (elapsedOf ts st.initial_timestamp) ("crash-".data ++ b)
              st.pending_crashes st.seen_sanitizers).2.2.1,
          need_dump :=
            st.need_dump
              || (triageScan (elapsedOf ts st.initial_timestamp) ("crash-".data ++ b)
                    st.pending_crashes st.seen_sanitizers).2.2.2 } := by
  have hsplit : renderCur ts (.artifact b)
      = natToDigits ts ++ ' ' :: 'a'
          :: ("rtifact_prefix=./; Test unit written to ./artifacts/crash-".data
              ++ b) := rfl
  have h1 : step1 st (renderCur ts (.artifact b)) = st := step1_of_none (by
    rw [hsplit]
    exact matchFuzzStart_ts_ne (by decide))
  have h2 : step2 st (renderCur ts (.artifact b)) = st := step2_of_none (by
    rw [hsplit]
    exact parse_cov_cur_none (by decide))
  have h3 : step3 sm st (renderCur ts (.artifact b)) = .ok st := step3_of_none (by
    rw [hsplit]
    exact parse_crash_cur_none (by decide))
  unfold processLine
  rw [h1, h2, h3]
  dsimp only
  have h5 : strContains (renderCur ts (.artifact b)) JAZZER_EXIT_LOG = false := by
    rw [show renderCur ts (.artifact b)
        = natToDigits ts ++ ' ' :: renderLegacy (.artifact b) from rfl,
      strContains_cur_eq]
    rw [show JAZZER_EXIT_LOG = '@' :: "@@@@ exit code of Jazzer".data from rfl]
    exact strContains_false_of_head_notMem (at_notMem_artifact hdig)
  rw [step5_of_none h5]
  unfold step4
  rw [parse_artifact_cur hb hdig ts]

theorem pl_exit_cur (sm : Bool) (st : FuzzState) (ts : Nat) :
    processLine sm st (renderCur ts .exitMark)
      = .ok { st with ttl_roundno_base := st.ttl_round } := by
  have hsplit : renderCur ts .exitMark
      = natToDigits ts ++ ' ' :: '@' :: exitLine.tail := rfl
  have h1 : step1 st (renderCur ts .exitMark) = st := step1_of_none (by
    rw [hsplit]
    exact matchFuzzStart_ts_ne (by decide))
  have h2 : step2 st (renderCur ts .exitMark) = st := step2_of_none (by
    rw [hsplit]
    exact parse_cov_cur_none (by decide))
  have h3 : step3 sm st (renderCur ts .exitMark) = .ok st := step3_of_none (by
    rw [hsplit]
    exact parse_crash_cur_none (by decide))
  have h4 : ∀ x : FuzzState, step4 x (renderCur ts .exitMark) = x := fun x =>
    step4_of_none (by
      rw [hsplit]
      exact parse_artifact_cur_none (by decide))
  unfold processLine
  rw [h1, h2, h3]
  dsimp only
  rw [h4]
  unfold step5
  rw [show renderCur ts .exitMark = natToDigits ts ++ ' ' :: exitLine from rfl,
    strContains_cur_eq, show strContains exitLine JAZZER_EXIT_LOG = true from rfl]
  simp

theorem triageScan_cons_eligible {artTime : Option Int} {artifact : List Char}
    {e : Option Int} {crash san : List Char} {rest : List PendingCrash}
    {seen : List (List Char)} (hel : eligibleB artTime e = true)
    (hg : (!(seen.contains san) || san == SINKPOINT) = true) :
    triageScan artTime artifact ((e, crash, san) :: rest) seen
      = ((triageScan artTime artifact rest (addSeen san seen)).1,
         (e, san, crash, artifact)
           :: (triageScan artTime artifact rest (addSeen san seen)).2.1,
         (triageScan artTime artifact rest (addSeen san seen)).2.2.1, true) := by
  conv_lhs => rw [triageScan]
  rw [if_pos hel, if_pos hg]

theorem triageScan_cons_seen {artTime : Option Int} {artifact : List Char}
    {e : Option Int} {crash san : List Char} {rest : List PendingCrash}
    {seen : List (List Char)} (hel : eligibleB artTime e = true)
    (hg : (!(seen.contains san) || san == SINKPOINT) = false) :
    triageScan artTime artifact ((e, crash, san) :: rest) seen
      = triageScan artTime artifact rest seen := by
  conv_lhs => rw [triageScan]
  rw [if_pos hel, hg]
  simp

theorem triageScan_coupled (artC : Option Int) (artifact : List Char) :
    ∀ (pend : List PendingCrash) (seen : List (List Char)),
    (∀ pc ∈ pend, eligibleB artC pc.1 = true) →
    (triageScan artC artifact pend seen).1 = [] ∧
    triageScan none artifact
        (pend.map (fun p => ((none : Option Int), p.2))) seen
      = ([], (triageScan artC artifact pend seen).2.1.map
            (fun p => ((none : Option Int), p.2)),
         (triageScan artC artifact pend seen).2.2.1,
         (triageScan artC artifact pend seen).2.2.2) := by
  intro pend
  induction pend with
  | nil => exact fun seen _ => ⟨rfl, rfl⟩
  | cons hd tl ih =>
    intro seen hall
    obtain ⟨e, crash, san⟩ := hd
    have hel : eligibleB artC e = true := hall (e, crash, san) (by simp)
    have htl : ∀ pc ∈ tl, eligibleB artC pc.1 = true := fun pc hpc =>
      hall pc (by simp [hpc])
    rw [List.map_cons]
    by_cases hg : (!(seen.contains san) || san == SINKPOINT) = true
    · obtain ⟨htail1, htail2⟩ := ih (addSeen san seen) htl
      rw [triageScan_cons_eligible hel hg,
        triageScan_cons_eligible (show eligibleB none (none : Option Int) = true from rfl) hg,
        htail2]
      refine ⟨htail1, ?_⟩
      simp
    · have hg' : (!(seen.contains san) || san == SINKPOINT) = false := by
        simpa using hg
      obtain ⟨htail1, htail2⟩ := ih seen htl
      rw [triageScan_cons_seen hel hg',
        triageScan_cons_seen (show eligibleB none (none : Option Int) = true from rfl) hg',
        htail2]
      exact ⟨htail1, rfl⟩

theorem pendingBounded_mono {stC : FuzzState} {lb ts : Nat}
    (h : pendingBounded stC lb) (hle : lb ≤ ts) : pendingBounded stC ts := by
  intro pc hpc v hv
  obtain ⟨t0v, ht0, hv2⟩ := h pc hpc v hv
  exact ⟨t0v, ht0, by omega⟩

theorem pendingBounded_step5 {b : FuzzState} {lb : Nat} {line : List Char}
    (h : pendingBounded b lb) : pendingBounded (step5 b line) lb := by
  unfold step5
  split
  · exact h
  · exact h

theorem pendingBounded_crashQueued {stC : FuzzState} {lb ts : Nat}
    (hpb : pendingBounded stC lb) (hlb : lb ≤ ts) (crash : List Char)
    (san? : Option (List Char)) :
    pendingBounded
      (crashQueued stC (elapsedOf ts stC.initial_timestamp) crash san?) ts := by
  unfold crashQueued
  cases san? with
  | none => exact pendingBounded_mono hpb hlb
  | some san =>
    dsimp only
    by_cases hg : (!(stC.seen_sanitizers.contains san) || san == SINKPOINT) = true
    · rw [if_pos hg]
      intro pc hpc v hv
      have hpc' : pc ∈ stC.pending_crashes
          ++ [(elapsedOf ts stC.initial_timestamp, crash, san)] := hpc
      rcases List.mem_append.mp hpc' with h | h
      · exact pendingBounded_mono hpb hlb pc h v hv
      · have hpc2 : pc = (elapsedOf ts stC.initial_timestamp, crash, san) := by
          simpa using h
        rw [hpc2] at hv
        cases ht0 : stC.initial_timestamp with
        | none =>
          rw [ht0] at hv
          exact absurd hv (by simp [elapsedOf])
        | some t0v =>
          rw [ht0] at hv
          simp only [elapsedOf, Option.some.injEq] at hv
          exact ⟨t0v, rfl, by omega⟩
    · rw [if_neg hg]
      exact pendingBounded_mono hpb hlb

theorem coupled_step5 {a b : FuzzState} {lineA lineC : List Char}
    (hco : coupled a b)
    (heq : strContains lineA JAZZER_EXIT_LOG = strContains lineC JAZZER_EXIT_LOG) :
    coupled (step5 a lineA) (step5 b lineC) := by
  obtain ⟨hc1, hc2, hc3, hc4, hc5, hc6, hc7, hc8, hc9, hc10, hc11, hc12, hc13, hc14⟩ := hco
  unfold step5
  rw [← heq]
  cases hS : strContains lineA JAZZER_EXIT_LOG with
  | false =>
    simp only [Bool.false_eq_true, if_false]
    exact ⟨hc1, hc2, hc3, hc4, hc5, hc6, hc7, hc8, hc9, hc10, hc11, hc12, hc13, hc14⟩
  | true =>
    simp only [if_true]
    exact ⟨hc1, hc2, hc3, hc4, hc5, hc6, hc7, hc8, hc9, hc10, hc11, hc12, hc8, hc14⟩

theorem coupled_crashQueued {stL stC : FuzzState} (hco : coupled stL stC)
    (e : Option Int) (crash : List Char) (san? : Option (List Char)) :
    coupled (crashQueued stL none crash san?) (crashQueued stC e crash san?) := by
  obtain ⟨hc1, hc2, hc3, hc4, hc5, hc6, hc7, hc8, hc9, hc10, hc11, hc12, hc13, hc14⟩ := hco
  unfold crashQueued
  cases san? with
  | none =>
    exact ⟨hc1, hc2, by simp [hc3], hc4, hc5, hc6, hc7, hc8, hc9, hc10, hc11, hc12,
      hc13, hc14⟩
  | some san =>
    dsimp only
    rw [hc7]
    by_cases hg : (!(stC.seen_sanitizers.contains san) || san == SINKPOINT) = true
    · rw [if_pos hg, if_pos hg]
      exact ⟨hc1, hc2, by simp [hc3], hc4, hc5, by simp [hc6], rfl, hc8, hc9, hc10,
        hc11, hc12, hc13, hc14⟩
    · rw [if_neg hg, if_neg hg]
      exact ⟨hc1, hc2, by simp [hc3], hc4, hc5, hc6, rfl, hc8, hc9, hc10, hc11, hc12,
        hc13, hc14⟩

theorem c8_step (sm : Bool) (stL stC : FuzzState) (lb ts : Nat) (ev : LogEv)
    (hco : coupled stL stC) (hpb : pendingBounded stC lb) (hlb : lb ≤ ts)
    (hwf : wfEv ev) :
    ∃ stL' stC',
      processLine sm stL (pyStrip (renderLegacy ev)) = .ok stL' ∧
      processLine sm stC (pyStrip (renderCur ts ev)) = .ok stC' ∧
      coupled stL' stC' ∧ pendingBounded stC' ts := by
  rw [pyStrip_render hwf, pyStrip_renderCur hwf]
  cases ev with
  | start =>
    cases h0 : stC.initial_timestamp with
    | none =>
      refine ⟨stL, { stC with initial_timestamp := some ts, need_dump := true },
        pl_start_legacy sm stL, pl_start_cur_first sm stC ts h0, hco, ?_⟩
      intro pc hpc v hv
      obtain ⟨t0v, ht0, _⟩ := hpb pc hpc v hv
      rw [h0] at ht0
      exact absurd ht0 (by simp)
    | some t =>
      exact ⟨stL, stC, pl_start_legacy sm stL, pl_start_cur_rest sm stC t ts h0,
        hco, pendingBounded_mono hpb hlb⟩
  | cov r cv ft =>
    obtain ⟨hc1, hc2, hc3, hc4, hc5, hc6, hc7, hc8, hc9, hc10, hc11, hc12, hc13, hc14⟩ := hco
    refine ⟨_, _, pl_cov_legacy sm stL r cv ft, pl_cov_cur sm stC ts r cv ft, ?_, ?_⟩
    · exact ⟨by simp [hc1], by simp [hc2], hc3, hc4, hc5, hc6, hc7, by simp [hc13],
        rfl, rfl, by simp [hc11], by simp [hc12], hc13, hc14⟩
    · exact pendingBounded_mono hpb hlb
  | crash s =>
    obtain ⟨san?, hsan⟩ := crash_2_sanitizer_banner_ok sm s
    have heq : strContains (renderLegacy (.crash s)) JAZZER_EXIT_LOG
        = strContains (renderCur ts (.crash s)) JAZZER_EXIT_LOG :=
      (strContains_cur_eq ts (renderLegacy (.crash s))).symm
    refine ⟨_, _, pl_crash_legacy sm stL s hsan, pl_crash_cur sm stC ts s hsan,
      coupled_step5 (coupled_crashQueued hco _ _ _) heq, ?_⟩
    exact pendingBounded_step5 (pendingBounded_crashQueued hpb hlb _ _)
  | artifact b =>
    obtain ⟨hb, hdig⟩ := hwf
    have hall : ∀ pc ∈ stC.pending_crashes,
        eligibleB (elapsedOf ts stC.initial_timestamp) pc.1 = true := by
      intro pc hpc
      cases ht0 : stC.initial_timestamp with
      | none => cases pc.1 <;> rfl
      | some t0v =>
        cases he : pc.1 with
        | none => rfl
        | some v =>
          obtain ⟨t0v', ht0', hvle⟩ := hpb pc hpc v he
          rw [ht0] at ht0'
          have ht0v : t0v = t0v' := by simpa using ht0'
          subst ht0v
          have hgoal : ((ts : Int) - (t0v : Int) ≥ v) := by omega
          exact decide_eq_true hgoal
    obtain ⟨hP1, hPe⟩ := triageScan_coupled (elapsedOf ts stC.initial_timestamp)
      ("crash-".data ++ b) stC.pending_crashes stC.seen_sanitizers hall
    obtain ⟨hc1, hc2, hc3, hc4, hc5, hc6, hc7, hc8, hc9, hc10, hc11, hc12, hc13, hc14⟩ := hco
    refine ⟨_, _, pl_artifact_legacy sm stL hb hdig, pl_artifact_cur sm stC ts hb hdig,
      ?_, ?_⟩
    · refine ⟨hc1, hc2, hc3, ?_, ?_, ?_, ?_, hc8, hc9, hc10, hc11, hc12, hc13, hc14⟩
      · show stL.artifact_over_time ++ [(none, "crash-".data ++ b)]
            = (stC.artifact_over_time
                ++ [(elapsedOf ts stC.initial_timestamp, "crash-".data ++ b)]).map
              (fun p => ((none : Option Int), p.2))
        simp [hc4]
      · show stL.log_triage_crash_over_time
              ++ (triageScan none ("crash-".data ++ b) stL.pending_crashes
                    stL.seen_sanitizers).2.1
            = (stC.log_triage_crash_over_time
                ++ (triageScan (elapsedOf ts stC.initial_timestamp)
                      ("crash-".data ++ b) stC.pending_crashes
                      stC.seen_sanitizers).2.1).map
              (fun p => ((none : Option Int), p.2))
        rw [hc5, hc6, hc7, hPe]
        simp
      · show (triageScan none ("crash-".data ++ b) stL.pending_crashes
              stL.seen_sanitizers).1
            = ((triageScan (elapsedOf ts stC.initial_timestamp) ("crash-".data ++ b)
                  stC.pending_crashes stC.seen_sanitizers).1).map
              (fun p => ((none : Option Int), p.2))
        rw [hc6, hc7, hPe, hP1]
        simp
      · show (triageScan none ("crash-".data ++ b) stL.pending_crashes
              stL.seen_sanitizers).2.2.1
            = (triageScan (elapsedOf ts stC.initial_timestamp) ("crash-".data ++ b)
                stC.pending_crashes stC.seen_sanitizers).2.2.1
        rw [hc6, hc7, hPe]
    · intro pc hpc v hv
      have hpc' : pc ∈ (triageScan (elapsedOf ts stC.initial_timestamp)
          ("crash-".data ++ b) stC.pending_crashes stC.seen_sanitizers).1 := hpc
      rw [hP1] at hpc'
      exact absurd hpc' (List.not_mem_nil pc)
  | exitMark =>
    refine ⟨{ stL with ttl_roundno_base := stL.ttl_round }, _, ?_,
      pl_exit_cur sm stC ts, ?_, ?_⟩
    · rw [show renderLegacy .exitMark = exitLine from rfl]
      exact processLine_exitLine sm stL
    · obtain ⟨hc1, hc2, hc3, hc4, hc5, hc6, hc7, hc8, hc9, hc10, hc11, hc12, hc13, hc14⟩ := hco
      exact ⟨hc1, hc2, hc3, hc4, hc5, hc6, hc7, hc8, hc9, hc10, hc11, hc12, hc8, hc14⟩
    · exact pendingBounded_mono hpb hlb

theorem runLoop_cons_ok {sm : Bool} {st st' : FuzzState} {l : List Char}
    (h : processLine sm st (pyStrip l) = .ok st') (d : Nat)
    (rest : List (List Char)) :
    ∃ d2, runLoop sm noDumpFail st d (l :: rest)
      = (toSync st'
           :: (runLoop sm noDumpFail { st' with need_dump := false } d2 rest).1,
         (runLoop sm noDumpFail { st' with need_dump := false } d2 rest).2) := by
  by_cases hd : st'.need_dump = true
  · refine ⟨d + 1, ?_⟩
    conv_lhs => rw [runLoop]
    rw [h]
    dsimp only
    rw [if_pos hd, show noDumpFail d = false from rfl, if_neg (by decide)]
  · refine ⟨d, ?_⟩
    have hd' : st'.need_dump = false := by simpa using hd
    have hst : { st' with need_dump := false } = st' := by
      cases st'
      simp_all
    rw [hst]
    conv_lhs => rw [runLoop]
    rw [h]
    dsimp only
    rw [if_neg (by simp [hd'])]

theorem c8_run (sm : Bool) (evs : List (Nat × LogEv)) :
    ∀ (lb : Nat) (stL stC : FuzzState) (dL dC : Nat),
    (∀ p ∈ evs, wfEv p.2) →
    List.Chain' (· ≤ ·) (lb :: evs.map Prod.fst) →
    coupled stL stC → pendingBounded stC lb →
    (runLoop sm noDumpFail stL dL (evs.map (fun p => renderLegacy p.2))).1.length
        = evs.length ∧
    (runLoop sm noDumpFail stC dC (evs.map (fun p => renderCur p.1 p.2))).1.length
        = evs.length ∧
    coupled
      (runLoop sm noDumpFail stL dL (evs.map (fun p => renderLegacy p.2))).2.1
      (runLoop sm noDumpFail stC dC (evs.map (fun p => renderCur p.1 p.2))).2.1 := by
  induction evs with
  | nil => exact fun lb stL stC dL dC _ _ hco _ => ⟨rfl, rfl, hco⟩
  | cons hd tl ih =>
    intro lb stL stC dL dC hwf hch hco hpb
    obtain ⟨ts, ev⟩ := hd
    rw [List.map_cons] at hch
    have hlb : lb ≤ ts := (List.chain'_cons.mp hch).1
    have hch' : List.Chain' (· ≤ ·) (ts :: tl.map Prod.fst) :=
      (List.chain'_cons.mp hch).2
    obtain ⟨stL', stC', hpL, hpC, hco', hpb'⟩ :=
      c8_step sm stL stC lb ts ev hco hpb hlb (hwf (ts, ev) (by simp))
    obtain ⟨dL2, hRL⟩ :=
      runLoop_cons_ok hpL dL (tl.map (fun p => renderLegacy p.2))
    obtain ⟨dC2, hRC⟩ :=
      runLoop_cons_ok hpC dC (tl.map (fun p => renderCur p.1 p.2))
    have hcoR : coupled { stL' with need_dump := false }
        { stC' with need_dump := false } := hco'
    have hpbR : pendingBounded { stC' with need_dump := false } ts := hpb'
    obtain ⟨ih1, ih2, ih3⟩ := ih ts { stL' with need_dump := false }
      { stC' with need_dump := false } dL2 dC2
      (fun p hp => hwf p (by simp [hp])) hch' hcoR hpbR
    simp only [List.map_cons]
    rw [hRL, hRC]
    exact ⟨by simp [ih1], by simp [ih2], ih3⟩

/-- C8: for an event stream rendered exclusively in the legacy format (no
timestamp prefix), the loop never raises — every line completes and syncs —
and every tuple of the aggregate output carries `elapsed_time = None`, while
every non-time field (coverage and feature values, crash texts, sanitizer
classes, artifact ids, round counters and running maxima) is identical to the
output for the corresponding timestamp-prefixed stream; proved for event
payloads that are well formed (crash texts with no trailing whitespace,
nonempty all-digit artifact ids) under nondecreasing timestamps, with the
external dump callback modelled as never failing. -/
theorem C8_legacy_equiv (sm : Bool) (evs : List (Nat × LogEv))
    (hwf : ∀ p ∈ evs, wfEv p.2)
    (hmono : List.Chain' (· ≤ ·) (evs.map Prod.fst)) :
    c8Concl sm evs := by
  have hch : List.Chain' (· ≤ ·) (0 :: evs.map Prod.fst) := by
    cases hm : evs.map Prod.fst with
    | nil => simp
    | cons a l =>
      rw [hm] at hmono
      exact List.chain'_cons.mpr ⟨Nat.zero_le a, hmono⟩
  have hco0 : coupled initState initState :=
    ⟨rfl, rfl, rfl, rfl, rfl, rfl, rfl, rfl, rfl, rfl, rfl, rfl, rfl, rfl⟩
  have hpb0 : pendingBounded initState 0 := fun pc hpc =>
    absurd hpc (by simp [initState])
  obtain ⟨h1, h2, h3⟩ := c8_run sm evs 0 initState initState 0 0 hwf hch hco0 hpb0
  obtain ⟨hc1, hc2, hc3, hc4, hc5, hc6, hc7, hc8, hc9, hc10, hc11, hc12, hc13, hc14⟩ := h3
  refine ⟨h1, hc1, hc2, hc3, hc4, hc5, hc8, hc9, hc10, hc11, hc12,
    ?_, ?_, ?_, ?_, ?_⟩
  · intro p hp
    rw [show (parse_log_in_stream sm noDumpFail
        (evs.map (fun p => renderLegacy p.2))).cov_over_time
      = (runLoop sm noDumpFail initState 0
          (evs.map (fun p => renderLegacy p.2))).2.1.cov_over_time from rfl, hc1] at hp
    obtain ⟨q, _, hq⟩ := List.mem_map.mp hp
    rw [← hq]
  · intro p hp
    rw [show (parse_log_in_stream sm noDumpFail
        (evs.map (fun p => renderLegacy p.2))).ft_over_time
      = (runLoop sm noDumpFail initState 0
          (evs.map (fun p => renderLegacy p.2))).2.1.ft_over_time from rfl, hc2] at hp
    obtain ⟨q, _, hq⟩ := List.mem_map.mp hp
    rw [← hq]
  · intro p hp
    rw [show (parse_log_in_stream sm noDumpFail
        (evs.map (fun p => renderLegacy p.2))).log_crash_over_time
      = (runLoop sm noDumpFail initState 0
          (evs.map (fun p => renderLegacy p.2))).2.1.log_crash_over_time from rfl,
      hc3] at hp
    obtain ⟨q, _, hq⟩ := List.mem_map.mp hp
    rw [← hq]
  · intro p hp
    rw [show (parse_log_in_stream sm noDumpFail
        (evs.map (fun p => renderLegacy p.2))).artifact_over_time
      = (runLoop sm noDumpFail initState 0
          (evs.map (fun p => renderLegacy p.2))).2.1.artifact_over_time from rfl,
      hc4] at hp
    obtain ⟨q, _, hq⟩ := List.mem_map.mp hp
    rw [← hq]
  · intro p hp
    rw [show (parse_log_in_stream sm noDumpFail
        (evs.map (fun p => renderLegacy p.2))).log_triage_crash_over_time
      = (runLoop sm noDumpFail initState 0
          (evs.map (fun p => renderLegacy p.2))).2.1.log_triage_crash_over_time
      from rfl, hc5] at hp
    obtain ⟨q, _, hq⟩ := List.mem_map.mp hp
    rw [← hq]

/-- Witness for C8: the five-event stream `c8evs` (start, coverage, an
interesting crash, its artifact, the exit marker) satisfies both hypotheses,
and the theorem applies to it. -/
theorem C8_legacy_equiv_witness :
    (∀ p ∈ c8evs, wfEv p.2) ∧
    List.Chain' (· ≤ ·) (c8evs.map Prod.fst) ∧
    c8Concl false c8evs := by
  have hwfW : ∀ p ∈ c8evs, wfEv p.2 := by
    intro p hp
    simp only [c8evs, List.mem_cons, List.not_mem_nil, or_false] at hp
    rcases hp with rfl | rfl | rfl | rfl | rfl
    · trivial
    · trivial
    · exact rfl
    · exact ⟨by decide, by decide⟩
    · trivial
  have hchW : List.Chain' (· ≤ ·) (c8evs.map Prod.fst) := by
    simp [c8evs, List.chain'_cons]
  exact ⟨hwfW, hchW, C8_legacy_equiv false c8evs hwfW hchW⟩
